import Mathlib

/-!
Verification of the `simulafun` NPC-AI core: the per-agent memory stream
(`src/ai/memoryStream.ts`) and the behaviour controller (`src/ai/npcAI.ts`),
shallowly embedded in Lean.

Modelling conventions, used throughout:
* JS `number` is modelled as `ℚ` (all quantities compared or added by the code
  are finite decimals); `Date.now()` timestamps are `ℚ` as well.
* `Array.prototype.sort(cmp)` (stable since ES2019) is modelled as a stable
  top-down merge sort `jsSort` built on core `List.merge`, taking from the
  left list on ties, which is the standard stable merge.
* JS object references are modelled by their `id` string, re-resolved against
  the world lists (the source itself re-reads all mutable fields from the
  referenced object, so an id-indexed lookup is equivalent when ids are
  unique, which the game guarantees).
-/

/-! ## A stable merge sort modelling `Array.prototype.sort` -/

/-- Stable top-down merge sort: split into first half / second half, sort each,
merge taking from the left on ties (`le x y = true` keeps `x` first).  This is
the behaviour of a stable JS `sort` with comparator `cmp` when
`le x y := cmp x y ≤ 0`. -/
def jsSort (le : α → α → Bool) (l : List α) : List α :=
  if h : l.length ≤ 1 then l
  else
    let k := l.length / 2
    List.merge (jsSort le (l.take k)) (jsSort le (l.drop k)) le
termination_by l.length
decreasing_by
  · simp [List.length_take]; omega
  · simp [List.length_drop]; omega

theorem jsSort_perm (le : α → α → Bool) (l : List α) : (jsSort le l).Perm l := by
  have key : ∀ n (l : List α), l.length ≤ n → (jsSort le l).Perm l := by
    intro n
    induction n with
    | zero =>
      intro l hl
      have : l = [] := List.length_eq_zero.mp (Nat.le_zero.mp hl)
      subst this
      rw [jsSort]
      simp
    | succ n ih =>
      intro l hl
      rw [jsSort]
      split
      · exact List.Perm.refl l
      · rename_i h
        have h2 : 2 ≤ l.length := by omega
        have hk1 : (l.take (l.length / 2)).length ≤ n := by
          simp [List.length_take]; omega
        have hk2 : (l.drop (l.length / 2)).length ≤ n := by
          simp [List.length_drop]; omega
        refine List.Perm.trans (List.merge_perm_append le) ?_
        refine List.Perm.trans (List.Perm.append (ih _ hk1) (ih _ hk2)) ?_
        rw [List.take_append_drop]
  exact key l.length l (Nat.le_refl _)

theorem jsSort_length (le : α → α → Bool) (l : List α) :
    (jsSort le l).length = l.length :=
  (jsSort_perm le l).length_eq

theorem jsSort_mem (le : α → α → Bool) (l : List α) (a : α) :
    a ∈ jsSort le l ↔ a ∈ l :=
  (jsSort_perm le l).mem_iff

/-- Merging preserves a transitive relation `R` when, pairwise across the two
lists, the comparator decides `R` in the right direction.  This holds even for
comparators that are not transitive themselves, which matters because the
eviction comparator of `memoryStream.ts` is not (its importance tolerance is
not transitive). -/
theorem pairwise_merge {R : α → α → Prop} (hR : Transitive R)
    (le : α → α → Bool) :
    ∀ (xs ys : List α), List.Pairwise R xs → List.Pairwise R ys →
      (∀ x ∈ xs, ∀ y ∈ ys, (le x y = true → R x y) ∧ (le x y = false → R y x)) →
      List.Pairwise R (List.merge xs ys le) := by
  intro xs
  induction xs with
  | nil => intro ys _ hys _; simpa [List.merge] using hys
  | cons x xs ihx =>
    intro ys hxs hys hcross
    induction ys with
    | nil => simpa [List.merge] using hxs
    | cons y ys ihy =>
      rw [List.merge]
      by_cases hxy : le x y = true
      · simp only [hxy, if_true]
        constructor
        · intro z hz
          have hz' : z ∈ xs ++ (y :: ys) :=
            (List.merge_perm_append le).mem_iff.mp hz
          rcases List.mem_append.mp hz' with hz1 | hz2
          · exact (List.pairwise_cons.mp hxs).1 z hz1
          · rcases List.mem_cons.mp hz2 with hz3 | hz4
            · subst hz3
              exact (hcross x (by simp) z (by simp)).1 hxy
            · have hxRy : R x y := (hcross x (by simp) y (by simp)).1 hxy
              have hyRz : R y z := (List.pairwise_cons.mp hys).1 z hz4
              exact hR hxRy hyRz
        · exact ihx (y :: ys) (List.pairwise_cons.mp hxs).2 hys
            (fun a ha b hb => hcross a (by simp [ha]) b hb)
      · have hxy' : le x y = false := by simpa using hxy
        simp only [hxy, if_false]
        constructor
        · intro z hz
          have hz' : z ∈ (x :: xs) ++ ys :=
            (List.merge_perm_append le).mem_iff.mp hz
          rcases List.mem_append.mp hz' with hz1 | hz2
          · rcases List.mem_cons.mp hz1 with hz3 | hz4
            · subst hz3
              exact (hcross z (by simp) y (by simp)).2 hxy'
            · have hyRx : R y x := (hcross x (by simp) y (by simp)).2 hxy'
              have hxRz : R x z := (List.pairwise_cons.mp hxs).1 z hz4
              exact hR hyRx hxRz
          · exact (List.pairwise_cons.mp hys).1 z hz2
        · exact ihy (List.pairwise_cons.mp hys).2
            (fun a ha b hb => hcross a ha b (by simp [hb]))

/-- `jsSort` preserves any transitive relation `R` for which the comparator
answers, between any earlier element and any later element of the input,
compatibly with `R`. -/
theorem pairwise_jsSort {R : α → α → Prop} (hR : Transitive R)
    (le : α → α → Bool) (l : List α)
    (hl : List.Pairwise
      (fun x y => (le x y = true → R x y) ∧ (le x y = false → R y x)) l) :
    List.Pairwise R (jsSort le l) := by
  have key : ∀ n (l : List α), l.length ≤ n →
      List.Pairwise
        (fun x y => (le x y = true → R x y) ∧ (le x y = false → R y x)) l →
      List.Pairwise R (jsSort le l) := by
    intro n
    induction n with
    | zero =>
      intro l hl _
      have : l = [] := List.length_eq_zero.mp (Nat.le_zero.mp hl)
      subst this
      rw [jsSort]
      simp
    | succ n ih =>
      intro l hlen hpw
      rw [jsSort]
      split
      · rename_i h
        match l, h with
        | [], _ => exact List.Pairwise.nil
        | [a], _ => exact List.pairwise_singleton _ a
      · rename_i h
        have h2 : 2 ≤ l.length := by omega
        have hk1 : (l.take (l.length / 2)).length ≤ n := by
          simp [List.length_take]; omega
        have hk2 : (l.drop (l.length / 2)).length ≤ n := by
          simp [List.length_drop]; omega
        have hsplit := List.take_append_drop (l.length / 2) l
        have hpw' : List.Pairwise
            (fun x y => (le x y = true → R x y) ∧ (le x y = false → R y x))
            (l.take (l.length / 2) ++ l.drop (l.length / 2)) := by
          rw [hsplit]; exact hpw
        rw [List.pairwise_append] at hpw'
        refine pairwise_merge hR le _ _
          (ih _ hk1 hpw'.1) (ih _ hk2 hpw'.2.1) ?_
        intro x hx y hy
        exact hpw'.2.2 x ((jsSort_mem le _ x).mp hx) y ((jsSort_mem le _ y).mp hy)
  exact key l.length l (Nat.le_refl _) hl

/-- The head of a merge comes from the head of one of the two lists. -/
theorem merge_head (le : α → α → Bool) :
    ∀ (xs ys : List α) (z : α) (zs : List α),
      List.merge xs ys le = z :: zs →
      xs.head? = some z ∨ ys.head? = some z := by
  intro xs ys z zs h
  match xs, ys with
  | [], ys =>
    right
    simp only [List.merge] at h
    rw [h]
    rfl
  | x :: xs, [] =>
    left
    simp only [List.merge] at h
    injection h with h1 _
    rw [h1]
    rfl
  | x :: xs, y :: ys =>
    rw [List.merge] at h
    by_cases hxy : le x y = true
    · simp only [hxy, if_true] at h
      injection h with h1 _
      left
      rw [h1]
      rfl
    · simp only [eq_false_of_ne_true hxy, if_false] at h
      injection h with h1 _
      right
      rw [h1]
      rfl

/-- Adjacent elements of `jsSort`'s output are related by the comparator:
the output is ascending in the sense of `le` at every adjacent pair, even for
an inconsistent comparator (only totality is needed). -/
theorem chain'_jsSort (le : α → α → Bool)
    (htot : ∀ x y, le x y = false → le y x = true) (l : List α) :
    List.Chain' (fun x y => le x y = true) (jsSort le l) := by
  have hmerge : ∀ (xs ys : List α),
      List.Chain' (fun x y => le x y = true) xs →
      List.Chain' (fun x y => le x y = true) ys →
      List.Chain' (fun x y => le x y = true) (List.merge xs ys le) := by
    intro xs
    induction xs with
    | nil => intro ys _ hys; simpa [List.merge] using hys
    | cons x xs ihx =>
      intro ys hxs hys
      induction ys with
      | nil => simpa [List.merge] using hxs
      | cons y ys ihy =>
        rw [List.merge]
        by_cases hxy : le x y = true
        · simp only [hxy, if_true]
          have htail := ihx (y :: ys) (List.Chain'.tail hxs) hys
          refine List.chain'_cons'.mpr ⟨?_, htail⟩
          intro z hz
          cases hme : List.merge xs (y :: ys) le with
          | nil => rw [hme] at hz; simp at hz
          | cons w ws =>
            rw [hme] at hz
            have hzw : w = z := by simpa using hz
            rw [← hzw]
            rcases merge_head le xs (y :: ys) w ws hme with h1 | h2
            · cases xs with
              | nil => simp at h1
              | cons x' xs' =>
                have hx'w : x' = w := by simpa using h1
                rw [← hx'w]
                exact (List.chain'_cons.mp hxs).1
            · have hyw : y = w := by simpa using h2
              rw [← hyw]
              exact hxy
        · have hxy' : le x y = false := by simpa using hxy
          simp only [hxy, if_false]
          have htail := ihy (List.Chain'.tail hys)
          refine List.chain'_cons'.mpr ⟨?_, htail⟩
          intro z hz
          cases hme : List.merge (x :: xs) ys le with
          | nil => rw [hme] at hz; simp at hz
          | cons w ws =>
            rw [hme] at hz
            have hzw : w = z := by simpa using hz
            rw [← hzw]
            rcases merge_head le (x :: xs) ys w ws hme with h1 | h2
            · have hxw : x = w := by simpa using h1
              rw [← hxw]
              exact htot x y hxy'
            · cases ys with
              | nil => simp at h2
              | cons y' ys' =>
                have hy'w : y' = w := by simpa using h2
                rw [← hy'w]
                exact (List.chain'_cons.mp hys).1
  have key : ∀ n (l : List α), l.length ≤ n →
      List.Chain' (fun x y => le x y = true) (jsSort le l) := by
    intro n
    induction n with
    | zero =>
      intro l hl
      have : l = [] := List.length_eq_zero.mp (Nat.le_zero.mp hl)
      subst this
      rw [jsSort]
      simp
    | succ n ih =>
      intro l hlen
      rw [jsSort]
      split
      · rename_i h
        match l, h with
        | [], _ => exact List.chain'_nil
        | [a], _ => exact List.chain'_singleton a
      · rename_i h
        have h2 : 2 ≤ l.length := by omega
        have hk1 : (l.take (l.length / 2)).length ≤ n := by
          simp [List.length_take]; omega
        have hk2 : (l.drop (l.length / 2)).length ≤ n := by
          simp [List.length_drop]; omega
        exact hmerge _ _ (ih _ hk1) (ih _ hk2)
  exact key l.length l (Nat.le_refl _)

/-! ## Position-indexed lists (for stability statements) -/

/-- Pair every element with its position, starting at `i`.  Used to express
the stability of `jsSort` (ties keep input order). -/
def withIdx : Nat → List α → List (Nat × α)
  | _, [] => []
  | i, a :: as => (i, a) :: withIdx (i + 1) as

theorem withIdx_length (i : Nat) (l : List α) : (withIdx i l).length = l.length := by
  induction l generalizing i with
  | nil => rfl
  | cons a as ih => simp [withIdx, ih]

theorem withIdx_getElem (i : Nat) (l : List α) (j : Nat)
    (h : j < (withIdx i l).length) (h' : j < l.length) :
    (withIdx i l)[j] = (i + j, l[j]) := by
  induction l generalizing i j with
  | nil => simp at h'
  | cons a as ih =>
    cases j with
    | zero => simp [withIdx]
    | succ j =>
      have h2 : j < (withIdx (i + 1) as).length := by
        simp only [withIdx] at h
        simpa using Nat.lt_of_succ_lt_succ h
      have h2' : j < as.length := by simpa using Nat.lt_of_succ_lt_succ h'
      simp only [withIdx, List.getElem_cons_succ]
      rw [ih (i + 1) j h2 h2']
      congr 1
      omega

theorem withIdx_mem_le (i : Nat) (l : List α) (p : Nat × α)
    (hp : p ∈ withIdx i l) : i ≤ p.1 := by
  induction l generalizing i with
  | nil => simp [withIdx] at hp
  | cons a as ih =>
    rcases (by simpa [withIdx] using hp : p = (i, a) ∨ p ∈ withIdx (i + 1) as) with
      h1 | h2
    · simp [h1]
    · have := ih (i + 1) h2
      omega

theorem withIdx_pairwise_lt (i : Nat) (l : List α) :
    List.Pairwise (fun p q : Nat × α => p.1 < q.1) (withIdx i l) := by
  induction l generalizing i with
  | nil => exact List.Pairwise.nil
  | cons a as ih =>
    refine List.pairwise_cons.mpr ⟨?_, ih (i + 1)⟩
    intro q hq
    have hle := withIdx_mem_le (i + 1) as q hq
    show (i, a).1 < q.1
    simp only []
    omega

theorem withIdx_mem (i : Nat) (l : List α) (p : Nat × α) (hp : p ∈ withIdx i l) :
    ∃ j, ∃ h : j < l.length, p = (i + j, l[j]) := by
  induction l generalizing i with
  | nil => simp [withIdx] at hp
  | cons a as ih =>
    rcases (by simpa [withIdx] using hp : p = (i, a) ∨ p ∈ withIdx (i + 1) as) with
      h1 | h2
    · exact ⟨0, by simp, by simpa using h1⟩
    · obtain ⟨j, hj, hjeq⟩ := ih (i + 1) h2
      exact ⟨j + 1, by simpa using Nat.succ_lt_succ hj, by
        rw [hjeq]
        simp [Nat.add_assoc, Nat.add_comm 1 j]⟩

/-! ## Memory stream (`src/ai/memoryStream.ts`) -/

/-- `MemoryType` from `memoryStream.ts`:
`"observation" | "episode" | "reflection" | "fact"`. -/
inductive MemoryType where
  | observation
  | episode
  | reflection
  | fact
deriving DecidableEq, Repr

/-- `MemoryEntry` from `memoryStream.ts`.  The source id is the string
`mem_<nextId>`; since the prefix is constant, `n ↦ "mem_" ++ n` is injective
and we model the id by the counter value `n : Nat` directly. -/
structure MemoryEntry where
  id : Nat
  content : String
  type : MemoryType
  timestamp : ℚ
  lastAccessed : ℚ
  importance : ℚ
  entities : List String
deriving DecidableEq, Repr

/-- The mutable fields of a `MemoryStream` instance. -/
structure MemoryStream where
  memories : List MemoryEntry
  importanceSinceLastReflection : ℚ
  nextId : Nat
deriving DecidableEq, Repr

/-- A fresh `MemoryStream` (field initialisers of the class). -/
def MemoryStream.empty : MemoryStream :=
  { memories := [], importanceSinceLastReflection := 0, nextId := 0 }

/-- Modelled from the spec: `MEMORY_CONFIG` is declared in
`src/core/constants.ts`, but its values are not part of the sources provided;
the spec and the repository design document fix `reflectionThreshold = 3.0`,
`decayRate = 0.995`, `reflectionInputCount = 10`, `retrieveLimit = 5
retrieved memories`, and an unspecified fixed capacity `maxMemories`, plus a
table of importance thresholds for encoded events.  We keep all of them as
parameters and quantify theorems over the whole configuration. -/
structure MemoryConfig where
  maxMemories : Nat
  retrieveLimit : Nat
  decayRate : ℚ
  reflectionThreshold : ℚ
  reflectionInputCount : Nat
  importanceCombat : ℚ
  importanceNearDeath : ℚ
  importanceEnvironmental : ℚ
  importanceConversation : ℚ
  importanceTrade : ℚ
  importanceDeath : ℚ
deriving DecidableEq, Repr

/-- The eviction comparator of `MemoryStream.evict` (the arrow function passed
to `sort`): reflections always rank last; otherwise ascending importance with
importance differences of at most `0.1` treated as ties (the code compares
`|importanceDiff| > 0.1`); remaining ties broken by `timestamp` ascending. -/
def evictCmp (a b : MemoryEntry) : ℚ :=
  if a.type = MemoryType.reflection ∧ b.type ≠ MemoryType.reflection then 1
  else if b.type = MemoryType.reflection ∧ a.type ≠ MemoryType.reflection then -1
  else
    let importanceDiff := a.importance - b.importance
    if |importanceDiff| > 1/10 then importanceDiff
    else a.timestamp - b.timestamp

/-- `a` sorts no later than `b` exactly when the comparator is `≤ 0`. -/
def evictLe (a b : MemoryEntry) : Bool :=
  decide (evictCmp a b ≤ 0)

/-- `MemoryStream.evict`: sort a copy of `memories` with `evictCmp` (stable
JS sort, modelled by `jsSort`), collect the ids of the first
`length - maxMemories` entries, and keep only entries whose id is not in that
set. -/
def MemoryStream.evict (cfg : MemoryConfig) (s : MemoryStream) : MemoryStream :=
  let sorted := jsSort evictLe s.memories
  let toRemove := s.memories.length - cfg.maxMemories
  let removeIds := (sorted.take toRemove).map (fun m => m.id)
  { s with memories := s.memories.filter (fun m => decide (¬ m.id ∈ removeIds)) }

/-- `MemoryStream.add`: clamp the importance to `[0, 1]`, build the entry with
the current time `now` (`Date.now()`), push it, accumulate the clamped
importance, and evict when the count exceeds `maxMemories`.  Returns the new
stream together with the created entry (the source returns the entry). -/
def MemoryStream.add (cfg : MemoryConfig) (now : ℚ) (content : String)
    (type : MemoryType) (importance : ℚ) (entities : List String)
    (s : MemoryStream) : MemoryStream × MemoryEntry :=
  let entry : MemoryEntry :=
    { id := s.nextId
      content := content
      type := type
      timestamp := now
      lastAccessed := now
      importance := max 0 (min 1 importance)
      entities := entities }
  let s1 : MemoryStream :=
    { memories := s.memories ++ [entry]
      importanceSinceLastReflection :=
        s.importanceSinceLastReflection + entry.importance
      nextId := s.nextId + 1 }
  if s1.memories.length > cfg.maxMemories then (s1.evict cfg, entry)
  else (s1, entry)

/-- The tokenizer of `memoryStream.ts`: lower-case, drop every character that
is not `[a-z0-9\s]`, split on whitespace, keep tokens of length `> 2`.
`toLowerCase` is modelled character-wise (`Char.toLower`), which agrees on the
ASCII range the regex keeps; the splitter drops empty fragments, which the
length filter would drop anyway. -/
def splitWhitespace : List Char → List Char → List String
  | [], acc => if acc.isEmpty then [] else [String.mk acc.reverse]
  | c :: cs, acc =>
    if c.isWhitespace then
      if acc.isEmpty then splitWhitespace cs []
      else String.mk acc.reverse :: splitWhitespace cs []
    else splitWhitespace cs (c :: acc)

def tokenize (text : String) : List String :=
  let cleaned := (text.toList.map Char.toLower).filter
    (fun c => c.isLower || c.isDigit || c.isWhitespace)
  (splitWhitespace cleaned []).filter (fun t => t.length > 2)

/-- `keywordOverlap`: the fraction of query tokens occurring among the tokens
of `content ++ " " ++ entities.join(" ")` or equal (case-insensitively) to an
entity name.  JS `Set` membership is modelled by list membership. -/
def keywordOverlap (queryTokens : List String) (m : MemoryEntry) : ℚ :=
  if queryTokens.length = 0 then 0
  else
    let memoryText :=
      (m.content ++ " " ++ String.intercalate " " m.entities).toList.map Char.toLower
    let memoryTokens := tokenize (String.mk memoryText)
    let entitySet := m.entities.map (fun e => String.mk (e.toList.map Char.toLower))
    let hits := queryTokens.countP
      (fun t => memoryTokens.contains t || entitySet.contains t)
    (hits : ℚ) / (queryTokens.length : ℚ)

/-- The score of one entry in `retrieve`: `recency + importance + relevance`.
`recency = Math.pow(decayRate, hoursSinceAccess)` is a real-valued power with
a rational exponent `(now - lastAccessed) / 3600000`; it is abstracted as the
parameter `rec`, a function of the elapsed milliseconds, since floating-point
`Math.pow` has no exact rational embedding.  Every theorem below holds for
every such `rec`, in particular for the decay power. -/
def retrieveScore (rec : ℚ → ℚ) (now : ℚ) (queryTokens : List String)
    (m : MemoryEntry) : ℚ :=
  rec (now - m.lastAccessed) + m.importance + keywordOverlap queryTokens m

/-- One scored element of the `scored` array, remembering its position in
`memories` (JS objects are distinguished by identity; the position makes that
explicit and carries the stability of `sort`). -/
structure ScoredEntry where
  idx : Nat
  mem : MemoryEntry
  score : ℚ
deriving DecidableEq, Repr

/-- The descending-score comparator `(a, b) => b.score - a.score` as a
`≤ 0` test. -/
def scoreLe (a b : ScoredEntry) : Bool :=
  decide (b.score - a.score ≤ 0)

/-- `MemoryStream.retrieve`: score every entry, sort descending by score
(stable), take the first `limit`, set `lastAccessed := now` on exactly the
returned entries (object mutation, modelled by position), and return them. -/
def MemoryStream.retrieve (cfg : MemoryConfig) (rec : ℚ → ℚ) (now : ℚ)
    (query : String) (limit : Nat) (s : MemoryStream) :
    MemoryStream × List MemoryEntry :=
  if s.memories.length = 0 then (s, [])
  else
    let queryTokens := tokenize query
    let scored := (withIdx 0 s.memories).map
      (fun p => ScoredEntry.mk p.1 p.2 (retrieveScore rec now queryTokens p.2))
    let sorted := jsSort scoreLe scored
    let results := sorted.take limit
    let resultIdxs := results.map (fun r => r.idx)
    let newMemories := (withIdx 0 s.memories).map
      (fun p : Nat × MemoryEntry => if p.1 ∈ resultIdxs
        then { p.2 with lastAccessed := now } else p.2)
    ({ s with memories := newMemories },
     results.map (fun r => { r.mem with lastAccessed := now }))

/-- `shouldReflect()`: accumulated importance reached the threshold and at
least 5 stored entries. -/
def MemoryStream.shouldReflect (cfg : MemoryConfig) (s : MemoryStream) : Bool :=
  decide (cfg.reflectionThreshold ≤ s.importanceSinceLastReflection ∧
    5 ≤ s.memories.length)

/-- The possible outcomes of the reflection round trip in `reflect`, as seen
by the store.  `parsedNoInsights` is a reply that `JSON.parse` accepts but
that has no (or a null) `insights` field: the code then takes `insights = []`.
`insights l` is a parsed reply carrying an insights array. -/
inductive ReflectionReply where
  | transportFail
  | noResponse
  | badJson
  | parsedNoInsights
  | insights (l : List String)
deriving DecidableEq, Repr

/-- The loop `for (const insight of insights.slice(0, 2)) { add(...) }`,
adding `reflection` entries of raw importance `0.8`, collecting the created
entries. -/
def addInsights (cfg : MemoryConfig) (now : ℚ) :
    List String → MemoryStream → MemoryStream × List MemoryEntry
  | [], s => (s, [])
  | i :: is, s =>
    let r1 := s.add cfg now i MemoryType.reflection (8/10) []
    let r2 := addInsights cfg now is r1.1
    (r2.1, r1.2 :: r2.2)

/-- `MemoryStream.reflect` (the store-visible part): no-op unless
`shouldReflect()`; on transport failure, an empty response, or a JSON parse
error the `catch`/early returns leave the stream untouched; once parsing
succeeds the accumulator is set to `0` and up to two `reflection` entries of
importance `0.8` are added (each `add` re-accumulates its importance).
Returns the created entries (`null` on the failure paths). -/
def MemoryStream.reflect (cfg : MemoryConfig) (now : ℚ)
    (reply : ReflectionReply) (s : MemoryStream) :
    MemoryStream × Option (List MemoryEntry) :=
  if s.shouldReflect cfg = false then (s, none)
  else
    match reply with
    | ReflectionReply.transportFail => (s, none)
    | ReflectionReply.noResponse => (s, none)
    | ReflectionReply.badJson => (s, none)
    | ReflectionReply.parsedNoInsights =>
      let s0 := { s with importanceSinceLastReflection := 0 }
      let r := addInsights cfg now (List.take 2 []) s0
      (r.1, some r.2)
    | ReflectionReply.insights l =>
      let s0 := { s with importanceSinceLastReflection := 0 }
      let r := addInsights cfg now (l.take 2) s0
      (r.1, some r.2)

/-! ### Eviction lemmas -/

/-- The comparator is antisymmetric under argument swap, like every JS
comparator of this shape. -/
theorem evictCmp_swap (a b : MemoryEntry) : evictCmp b a = -evictCmp a b := by
  unfold evictCmp
  by_cases hA1 : a.type = MemoryType.reflection ∧ b.type ≠ MemoryType.reflection
  · have hA2 : ¬(b.type = MemoryType.reflection ∧ a.type ≠ MemoryType.reflection) :=
      fun h => hA1.2 h.1
    rw [if_neg hA2, if_pos hA1, if_pos hA1]
    try norm_num
  · by_cases hA2 : b.type = MemoryType.reflection ∧ a.type ≠ MemoryType.reflection
    · rw [if_pos hA2, if_neg hA1, if_pos hA2]
      norm_num
    · rw [if_neg hA1, if_neg hA2, if_neg hA1, if_neg hA2]
      have habs : |b.importance - a.importance| = |a.importance - b.importance| :=
        abs_sub_comm _ _
      by_cases hT : |a.importance - b.importance| > 1/10
      · rw [if_pos hT, if_pos (habs ▸ hT)]
        ring
      · rw [if_neg hT, if_neg (fun h => hT (habs ▸ h))]
        ring

/-- Totality of the sort order induced by the comparator. -/
theorem evictLe_total (a b : MemoryEntry) (h : evictLe a b = false) :
    evictLe b a = true := by
  unfold evictLe at *
  rw [decide_eq_true_iff]
  rw [decide_eq_false_iff_not] at h
  rw [evictCmp_swap]
  linarith [not_le.mp h]

theorem countP_mem_split (l : List MemoryEntry) (ids : List Nat) :
    l.countP (fun m => decide (¬ m.id ∈ ids)) +
      l.countP (fun m => decide (m.id ∈ ids)) = l.length := by
  induction l with
  | nil => simp
  | cons a as ih =>
    by_cases h : a.id ∈ ids <;> simp [List.countP_cons, h] at ih ⊢ <;> omega

/-- The ids collected from the low end of the eviction order. -/
def evictRemoveIds (cfg : MemoryConfig) (s : MemoryStream) : List Nat :=
  ((jsSort evictLe s.memories).take (s.memories.length - cfg.maxMemories)).map
    (fun m => m.id)

theorem evict_eq (cfg : MemoryConfig) (s : MemoryStream) :
    (s.evict cfg).memories =
      s.memories.filter (fun m => decide (¬ m.id ∈ evictRemoveIds cfg s)) := rfl

/-- At least `length - maxMemories` entries carry a removed id. -/
theorem evict_countP_ge (cfg : MemoryConfig) (s : MemoryStream) :
    min (s.memories.length - cfg.maxMemories) s.memories.length ≤
      s.memories.countP (fun m => decide (m.id ∈ evictRemoveIds cfg s)) := by
  set k := s.memories.length - cfg.maxMemories with hk
  have hperm := jsSort_perm evictLe s.memories
  have hcnt : s.memories.countP (fun m => decide (m.id ∈ evictRemoveIds cfg s)) =
      (jsSort evictLe s.memories).countP
        (fun m => decide (m.id ∈ evictRemoveIds cfg s)) :=
    (hperm.countP_eq _).symm
  rw [hcnt]
  have hsplit := List.take_append_drop k (jsSort evictLe s.memories)
  have htake : ((jsSort evictLe s.memories).take k).countP
      (fun m => decide (m.id ∈ evictRemoveIds cfg s)) =
      ((jsSort evictLe s.memories).take k).length := by
    rw [List.countP_eq_length]
    intro a ha
    simp only [decide_eq_true_iff]
    exact List.mem_map_of_mem _ ha
  calc min k s.memories.length
      = ((jsSort evictLe s.memories).take k).length := by
        rw [List.length_take, jsSort_length]
    _ ≤ _ := by
        conv_rhs => rw [← hsplit]
        rw [List.countP_append, htake]
        omega

/-- Eviction always lands at or below capacity, whatever the store held. -/
theorem evict_length_le (cfg : MemoryConfig) (s : MemoryStream) :
    (s.evict cfg).memories.length ≤ cfg.maxMemories := by
  rw [evict_eq]
  have h1 : (s.memories.filter
      (fun m => decide (¬ m.id ∈ evictRemoveIds cfg s))).length =
      s.memories.countP (fun m => decide (¬ m.id ∈ evictRemoveIds cfg s)) :=
    (List.countP_eq_length_filter _ _).symm
  have h2 := countP_mem_split s.memories (evictRemoveIds cfg s)
  have h3 := evict_countP_ge cfg s
  rw [h1]
  omega

/-- The entry built at the top of `add`. -/
theorem add_snd (cfg : MemoryConfig) (now : ℚ) (content : String)
    (type : MemoryType) (importance : ℚ) (entities : List String)
    (s : MemoryStream) :
    (s.add cfg now content type importance entities).2 =
      { id := s.nextId, content := content, type := type, timestamp := now,
        lastAccessed := now, importance := max 0 (min 1 importance),
        entities := entities } := by
  unfold MemoryStream.add
  by_cases h : s.memories.length + 1 > cfg.maxMemories <;>
    simp [List.length_append, h]

theorem add_acc (cfg : MemoryConfig) (now : ℚ) (content : String)
    (type : MemoryType) (importance : ℚ) (entities : List String)
    (s : MemoryStream) :
    (s.add cfg now content type importance entities).1.importanceSinceLastReflection =
      s.importanceSinceLastReflection + max 0 (min 1 importance) := by
  unfold MemoryStream.add MemoryStream.evict
  by_cases h : s.memories.length + 1 > cfg.maxMemories <;>
    simp [List.length_append, h]

theorem add_nextId (cfg : MemoryConfig) (now : ℚ) (content : String)
    (type : MemoryType) (importance : ℚ) (entities : List String)
    (s : MemoryStream) :
    (s.add cfg now content type importance entities).1.nextId = s.nextId + 1 := by
  unfold MemoryStream.add MemoryStream.evict
  by_cases h : s.memories.length + 1 > cfg.maxMemories <;>
    simp [List.length_append, h]

theorem add_memories_no_evict (cfg : MemoryConfig) (now : ℚ) (content : String)
    (type : MemoryType) (importance : ℚ) (entities : List String)
    (s : MemoryStream) (h : s.memories.length + 1 ≤ cfg.maxMemories) :
    (s.add cfg now content type importance entities).1.memories =
      s.memories ++ [(s.add cfg now content type importance entities).2] := by
  rw [add_snd]
  unfold MemoryStream.add
  rw [if_neg]
  simp [List.length_append]
  omega

theorem add_eq_evict (cfg : MemoryConfig) (now : ℚ) (content : String)
    (type : MemoryType) (importance : ℚ) (entities : List String)
    (s : MemoryStream) (h : cfg.maxMemories < s.memories.length + 1) :
    (s.add cfg now content type importance entities).1 =
      MemoryStream.evict cfg
        { memories := s.memories ++ [(s.add cfg now content type importance entities).2]
          importanceSinceLastReflection := s.importanceSinceLastReflection +
            max 0 (min 1 importance)
          nextId := s.nextId + 1 } := by
  rw [add_snd]
  unfold MemoryStream.add
  rw [if_pos]
  simp [List.length_append]
  omega

/-- A single `add`, from any store state, returns with the count at or below
capacity. -/
theorem add_length_le (cfg : MemoryConfig) (now : ℚ) (content : String)
    (type : MemoryType) (importance : ℚ) (entities : List String)
    (s : MemoryStream) :
    (s.add cfg now content type importance entities).1.memories.length ≤
      cfg.maxMemories ∨
    (s.add cfg now content type importance entities).1.memories.length =
      s.memories.length + 1 := by
  by_cases h : cfg.maxMemories < s.memories.length + 1
  · left
    rw [add_eq_evict cfg now content type importance entities s h]
    exact evict_length_le cfg _
  · right
    rw [add_memories_no_evict cfg now content type importance entities s (by omega)]
    simp

/-- The argument list of one `add` call. -/
structure AddCall where
  now : ℚ
  content : String
  type : MemoryType
  importance : ℚ
  entities : List String
deriving DecidableEq, Repr

/-- A sequence of `add` calls, applied in order. -/
def applyAdds (cfg : MemoryConfig) : List AddCall → MemoryStream → MemoryStream
  | [], s => s
  | r :: rs, s =>
    applyAdds cfg rs (s.add cfg r.now r.content r.type r.importance r.entities).1

/-- **C1** (invariants): for every memory store and every sequence of `add`
calls, the stored entry count after each `add` returns is at most the fixed
capacity `MEMORY_CONFIG.maxMemories`; when an `add` pushes the count past
capacity, eviction runs synchronously inside that `add` (the result is
exactly `evict` applied to the pushed store) and restores
`count ≤ capacity` before `add` returns. -/
theorem c1_add_count_le_capacity (cfg : MemoryConfig) :
    (∀ (now : ℚ) (content : String) (type : MemoryType) (importance : ℚ)
        (entities : List String) (s : MemoryStream),
      (s.add cfg now content type importance entities).1.memories.length ≤
        cfg.maxMemories) ∧
    (∀ (calls : List AddCall) (s : MemoryStream), calls ≠ [] →
      (applyAdds cfg calls s).memories.length ≤ cfg.maxMemories) ∧
    (∀ (now : ℚ) (content : String) (type : MemoryType) (importance : ℚ)
        (entities : List String) (s : MemoryStream),
      cfg.maxMemories < s.memories.length + 1 →
      (s.add cfg now content type importance entities).1 =
        MemoryStream.evict cfg
          { memories :=
              s.memories ++ [(s.add cfg now content type importance entities).2]
            importanceSinceLastReflection := s.importanceSinceLastReflection +
              max 0 (min 1 importance)
            nextId := s.nextId + 1 }) := by
  have single : ∀ (now : ℚ) (content : String) (type : MemoryType)
      (importance : ℚ) (entities : List String) (s : MemoryStream),
      (s.add cfg now content type importance entities).1.memories.length ≤
        cfg.maxMemories := by
    intro now content type importance entities s
    by_cases h : cfg.maxMemories < s.memories.length + 1
    · rw [add_eq_evict cfg now content type importance entities s h]
      exact evict_length_le cfg _
    · rw [add_memories_no_evict cfg now content type importance entities s (by omega)]
      simp
      omega
  refine ⟨single, ?_, ?_⟩
  · intro calls
    induction calls with
    | nil => intro s h; exact absurd rfl h
    | cons r rs ih =>
      intro s _
      cases rs with
      | nil => exact single r.now r.content r.type r.importance r.entities s
      | cons r' rs' =>
        exact ih _ (by simp)
  · intro now content type importance entities s h
    exact add_eq_evict cfg now content type importance entities s h

/-- Witness for C1 at a concrete input: capacity 2, three adds from the empty
store end at count 2 (the third `add` evicted). -/
theorem c1_witness :
    ([⟨0, "saw a wolf", MemoryType.observation, 1/2, []⟩,
      ⟨1, "talked to the player", MemoryType.episode, 3/10, []⟩,
      ⟨2, "wolves are dangerous", MemoryType.fact, 9/10, []⟩] : List AddCall) ≠ [] ∧
    (applyAdds
      { maxMemories := 2, retrieveLimit := 5, decayRate := 995/1000,
        reflectionThreshold := 3, reflectionInputCount := 10,
        importanceCombat := 6/10, importanceNearDeath := 9/10,
        importanceEnvironmental := 3/10, importanceConversation := 5/10,
        importanceTrade := 5/10, importanceDeath := 1 }
      [⟨0, "saw a wolf", MemoryType.observation, 1/2, []⟩,
       ⟨1, "talked to the player", MemoryType.episode, 3/10, []⟩,
       ⟨2, "wolves are dangerous", MemoryType.fact, 9/10, []⟩]
      MemoryStream.empty).memories.length ≤ 2 := by
  constructor
  · simp
  · exact (c1_add_count_le_capacity _).2.1 _ _ (by simp)

theorem sorted_ids_nodup (s : MemoryStream)
    (hnd : (s.memories.map MemoryEntry.id).Nodup) :
    ((jsSort evictLe s.memories).map MemoryEntry.id).Nodup :=
  (((jsSort_perm evictLe s.memories).map MemoryEntry.id).nodup_iff).mpr hnd

theorem mem_evictRemoveIds_iff (cfg : MemoryConfig) (s : MemoryStream)
    (hnd : (s.memories.map MemoryEntry.id).Nodup) (m : MemoryEntry)
    (hm : m ∈ s.memories) :
    m.id ∈ evictRemoveIds cfg s ↔
      m ∈ (jsSort evictLe s.memories).take (s.memories.length - cfg.maxMemories) := by
  constructor
  · intro h
    obtain ⟨y, hy, hyid⟩ := List.mem_map.mp h
    have hy_mem : y ∈ s.memories :=
      (jsSort_perm evictLe s.memories).subset (List.take_subset _ _ hy)
    have : y = m := List.inj_on_of_nodup_map hnd hy_mem hm hyid
    exact this ▸ hy
  · intro h
    exact List.mem_map_of_mem _ h

theorem evict_mem_iff (cfg : MemoryConfig) (s : MemoryStream)
    (hnd : (s.memories.map MemoryEntry.id).Nodup) (m : MemoryEntry)
    (hm : m ∈ s.memories) :
    m ∈ (s.evict cfg).memories ↔
      m ∉ (jsSort evictLe s.memories).take (s.memories.length - cfg.maxMemories) := by
  rw [evict_eq, List.mem_filter]
  constructor
  · intro ⟨_, h2⟩
    have := of_decide_eq_true h2
    exact fun hc => this ((mem_evictRemoveIds_iff cfg s hnd m hm).mpr hc)
  · intro h
    exact ⟨hm, decide_eq_true
      (fun hc => h ((mem_evictRemoveIds_iff cfg s hnd m hm).mp hc))⟩

theorem evict_length_eq (cfg : MemoryConfig) (s : MemoryStream)
    (hnd : (s.memories.map MemoryEntry.id).Nodup)
    (hgt : cfg.maxMemories < s.memories.length) :
    (s.evict cfg).memories.length = cfg.maxMemories := by
  set k := s.memories.length - cfg.maxMemories with hk
  have hperm := jsSort_perm evictLe s.memories
  -- exactly the first k entries of the sorted list carry a removed id
  have hdrop : ((jsSort evictLe s.memories).drop k).countP
      (fun m => decide (m.id ∈ evictRemoveIds cfg s)) = 0 := by
    rw [List.countP_eq_zero]
    intro x hx
    simp only [decide_eq_true_iff]
    intro hxid
    have hx_mem : x ∈ s.memories := hperm.subset (List.drop_subset _ _ hx)
    have hx_take := (mem_evictRemoveIds_iff cfg s hnd x hx_mem).mp hxid
    have hsorted_nodup : (jsSort evictLe s.memories).Nodup :=
      (sorted_ids_nodup s hnd).of_map
    exact (List.disjoint_take_drop hsorted_nodup (Nat.le_refl k)) hx_take hx
  have htake : ((jsSort evictLe s.memories).take k).countP
      (fun m => decide (m.id ∈ evictRemoveIds cfg s)) =
      ((jsSort evictLe s.memories).take k).length := by
    rw [List.countP_eq_length]
    intro a ha
    simp only [decide_eq_true_iff]
    exact List.mem_map_of_mem _ ha
  have hcnt : s.memories.countP (fun m => decide (m.id ∈ evictRemoveIds cfg s)) = k := by
    rw [← hperm.countP_eq]
    conv_lhs => rw [← List.take_append_drop k (jsSort evictLe s.memories)]
    rw [List.countP_append, htake, hdrop, List.length_take, jsSort_length]
    omega
  have h1 : (s.evict cfg).memories.length =
      s.memories.countP (fun m => decide (¬ m.id ∈ evictRemoveIds cfg s)) := by
    rw [evict_eq]
    exact (List.countP_eq_length_filter _ _).symm
  have h2 := countP_mem_split s.memories (evictRemoveIds cfg s)
  omega

theorem pairwise_all {P : α → α → Prop} (hP : ∀ x y, P x y) (l : List α) :
    List.Pairwise P l := by
  induction l with
  | nil => exact List.Pairwise.nil
  | cons a as ih => exact List.pairwise_cons.mpr ⟨fun y _ => hP a y, ih⟩

/-- The sorted eviction order never places a `reflection` entry before a
non-`reflection` entry. -/
theorem evict_sorted_reflections_last (s : MemoryStream) :
    List.Pairwise
      (fun a b : MemoryEntry =>
        a.type = MemoryType.reflection → b.type = MemoryType.reflection)
      (jsSort evictLe s.memories) := by
  apply pairwise_jsSort
  · intro a b c hab hbc ha
    exact hbc (hab ha)
  · apply pairwise_all
    intro x y
    constructor
    · intro hle hx
      by_contra hy
      have : evictCmp x y = 1 := by
        unfold evictCmp
        rw [if_pos ⟨hx, hy⟩]
      unfold evictLe at hle
      rw [this] at hle
      norm_num at hle
    · intro hle hy
      by_contra hx
      have : evictCmp x y = -1 := by
        unfold evictCmp
        rw [if_neg, if_pos ⟨hy, hx⟩]
        intro h
        exact hx h.1
      unfold evictLe at hle
      rw [this] at hle
      norm_num at hle

/-- **C2** (functional correctness): for every store whose entry count exceeds
capacity, `evict` removes exactly `count − capacity` entries, namely the
initial segment (the least elements) of the stable sort of the entries by the
eviction comparator — reflections ranked above everything, then importance
ascending with differences within the `0.1` tolerance treated as ties, then
creation age ascending; adjacent sorted entries are always in comparator
order, and no `reflection` entry is evicted while any non-`reflection` entry
is retained.  Id-uniqueness (`hnd`) holds for every store the class can build,
since ids come from the monotone private counter. -/
theorem c2_evict_removes_least (cfg : MemoryConfig) (s : MemoryStream)
    (hnd : (s.memories.map MemoryEntry.id).Nodup)
    (hgt : cfg.maxMemories < s.memories.length) :
    (s.evict cfg).memories.length = cfg.maxMemories ∧
    (jsSort evictLe s.memories).Perm s.memories ∧
    List.Chain' (fun a b => evictLe a b = true) (jsSort evictLe s.memories) ∧
    (∀ m ∈ s.memories, m ∈ (s.evict cfg).memories ↔
      m ∉ (jsSort evictLe s.memories).take
        (s.memories.length - cfg.maxMemories)) ∧
    (∀ r ∈ s.memories, r.type = MemoryType.reflection →
      r ∉ (s.evict cfg).memories →
      ∀ q ∈ s.memories, q.type ≠ MemoryType.reflection →
      q ∉ (s.evict cfg).memories) := by
  refine ⟨evict_length_eq cfg s hnd hgt, jsSort_perm evictLe s.memories,
    chain'_jsSort evictLe evictLe_total s.memories,
    fun m hm => evict_mem_iff cfg s hnd m hm, ?_⟩
  intro r hr hrtype hrout q hq hqtype
  intro hqin
  -- r was removed, hence r is in the low segment of the sorted order
  have hrtake : r ∈ (jsSort evictLe s.memories).take
      (s.memories.length - cfg.maxMemories) := by
    by_contra hc
    exact hrout ((evict_mem_iff cfg s hnd r hr).mpr hc)
  -- q was kept, hence q is in the high segment
  have hqdrop : q ∈ (jsSort evictLe s.memories).drop
      (s.memories.length - cfg.maxMemories) := by
    have hq_sorted : q ∈ jsSort evictLe s.memories :=
      (jsSort_mem evictLe s.memories q).mpr hq
    have hqtake := (evict_mem_iff cfg s hnd q hq).mp hqin
    have := List.take_append_drop (s.memories.length - cfg.maxMemories)
      (jsSort evictLe s.memories)
    rw [← this] at hq_sorted
    rcases List.mem_append.mp hq_sorted with h | h
    · exact absurd h hqtake
    · exact h
  -- but reflections sort after non-reflections
  have hpw := evict_sorted_reflections_last s
  rw [← List.take_append_drop (s.memories.length - cfg.maxMemories)
    (jsSort evictLe s.memories), List.pairwise_append] at hpw
  exact hqtype (hpw.2.2 r hrtake q hqdrop hrtype)

/-- Witness for C2: a two-entry store over capacity 1; the non-reflection
entry (importance 1) is evicted, the reflection entry (importance 0) is kept. -/
theorem c2_witness :
    (([{ id := 0, content := "old fact", type := MemoryType.observation,
         timestamp := 0, lastAccessed := 0, importance := 1, entities := [] },
       { id := 1, content := "insight", type := MemoryType.reflection,
         timestamp := 1, lastAccessed := 1, importance := 0, entities := [] }] :
      List MemoryEntry).map MemoryEntry.id).Nodup ∧
    (1 : Nat) < 2 ∧
    (MemoryStream.evict
      { maxMemories := 1, retrieveLimit := 5, decayRate := 995/1000,
        reflectionThreshold := 3, reflectionInputCount := 10,
        importanceCombat := 6/10, importanceNearDeath := 9/10,
        importanceEnvironmental := 3/10, importanceConversation := 5/10,
        importanceTrade := 5/10, importanceDeath := 1 }
      { memories :=
          [{ id := 0, content := "old fact", type := MemoryType.observation,
             timestamp := 0, lastAccessed := 0, importance := 1, entities := [] },
           { id := 1, content := "insight", type := MemoryType.reflection,
             timestamp := 1, lastAccessed := 1, importance := 0, entities := [] }]
        importanceSinceLastReflection := 0
        nextId := 2 }).memories.length = 1 := by
  refine ⟨by decide, by decide, ?_⟩
  exact (c2_evict_removes_least _ _ (by decide) (by decide)).1

/-! ### Reflection lemmas -/

theorem clamp_eight_tenths : max 0 (min 1 (8/10 : ℚ)) = 4/5 := by norm_num

theorem addInsights_length (cfg : MemoryConfig) (now : ℚ) :
    ∀ (l : List String) (s : MemoryStream),
      (addInsights cfg now l s).2.length = l.length := by
  intro l
  induction l with
  | nil => intro s; rfl
  | cons i is ih => intro s; simp [addInsights, ih]

theorem addInsights_types (cfg : MemoryConfig) (now : ℚ) :
    ∀ (l : List String) (s : MemoryStream),
      ∀ e ∈ (addInsights cfg now l s).2,
        e.type = MemoryType.reflection ∧ e.importance = 4/5 := by
  intro l
  induction l with
  | nil => intro s e he; simp [addInsights] at he
  | cons i is ih =>
    intro s e he
    simp only [addInsights, List.mem_cons] at he
    rcases he with he | he
    · rw [he, add_snd]
      exact ⟨rfl, clamp_eight_tenths⟩
    · exact ih _ e he

theorem addInsights_acc (cfg : MemoryConfig) (now : ℚ) :
    ∀ (l : List String) (s : MemoryStream),
      (addInsights cfg now l s).1.importanceSinceLastReflection =
        s.importanceSinceLastReflection + (4/5) * l.length := by
  intro l
  induction l with
  | nil => intro s; simp [addInsights]
  | cons i is ih =>
    intro s
    simp only [addInsights]
    rw [ih, add_acc, clamp_eight_tenths]
    simp [List.length_cons]
    push_cast
    ring

theorem addInsights_nextId (cfg : MemoryConfig) (now : ℚ) :
    ∀ (l : List String) (s : MemoryStream),
      (addInsights cfg now l s).1.nextId = s.nextId + l.length := by
  intro l
  induction l with
  | nil => intro s; simp [addInsights]
  | cons i is ih =>
    intro s
    simp only [addInsights]
    rw [ih, add_nextId]
    simp
    omega

theorem addInsights_memories (cfg : MemoryConfig) (now : ℚ) :
    ∀ (l : List String) (s : MemoryStream),
      s.memories.length + l.length ≤ cfg.maxMemories →
      (addInsights cfg now l s).1.memories =
        s.memories ++ (addInsights cfg now l s).2 := by
  intro l
  induction l with
  | nil => intro s _; simp [addInsights]
  | cons i is ih =>
    intro s hle
    simp only [addInsights]
    have h1 : s.memories.length + 1 ≤ cfg.maxMemories := by
      simp at hle
      omega
    have hmem := add_memories_no_evict cfg now i MemoryType.reflection (8/10) [] s h1
    rw [ih _ (by rw [hmem]; simp at hle ⊢; omega), hmem]
    simp

/-- A concrete configuration used by the concrete instances below (values as
fixed by the spec; the capacity is arbitrary). -/
def exCfg : MemoryConfig :=
  { maxMemories := 10, retrieveLimit := 5, decayRate := 995/1000,
    reflectionThreshold := 3, reflectionInputCount := 10,
    importanceCombat := 6/10, importanceNearDeath := 9/10,
    importanceEnvironmental := 3/10, importanceConversation := 5/10,
    importanceTrade := 5/10, importanceDeath := 1 }

/-- A concrete five-entry store whose accumulated importance sits exactly at
the reflection threshold, so `shouldReflect()` holds. -/
def exStore5 : MemoryStream :=
  { memories :=
      [{ id := 0, content := "a wolf appeared", type := MemoryType.observation,
         timestamp := 0, lastAccessed := 0, importance := 0, entities := [] },
       { id := 1, content := "fought the wolf", type := MemoryType.episode,
         timestamp := 0, lastAccessed := 0, importance := 0, entities := [] },
       { id := 2, content := "low health", type := MemoryType.observation,
         timestamp := 0, lastAccessed := 0, importance := 0, entities := [] },
       { id := 3, content := "traded herbs", type := MemoryType.episode,
         timestamp := 0, lastAccessed := 0, importance := 0, entities := [] },
       { id := 4, content := "the player helped", type := MemoryType.episode,
         timestamp := 0, lastAccessed := 0, importance := 0, entities := [] }]
    importanceSinceLastReflection := 3
    nextId := 5 }

/-- **C3** (functional correctness, amended): on a store satisfying
`shouldReflect()` and a well-formed insights reply, `reflect` first sets
`importanceSinceLastReflection` to `0` and then appends up to two
`reflection`-typed entries of importance `0.8`; each append re-accumulates
its importance, so the accumulator ends at `0.8` per appended entry
(at most `1.6`), not at `0`; since `1.6 < 3 =` the reflection threshold,
`shouldReflect()` is false immediately after the call and stays false until
the accumulated importance again reaches the threshold. -/
theorem c3_reflect_success (cfg : MemoryConfig) (now : ℚ) (s : MemoryStream)
    (ins : List String) (hsr : s.shouldReflect cfg = true)
    (hth : cfg.reflectionThreshold = 3) :
    ∃ es, (s.reflect cfg now (ReflectionReply.insights ins)).2 = some es ∧
      es.length = (ins.take 2).length ∧ es.length ≤ 2 ∧
      (∀ e ∈ es, e.type = MemoryType.reflection ∧ e.importance = 4/5) ∧
      (s.reflect cfg now (ReflectionReply.insights ins)).1.importanceSinceLastReflection =
        (4/5) * ((ins.take 2).length : ℚ) ∧
      (s.reflect cfg now (ReflectionReply.insights ins)).1.shouldReflect cfg = false ∧
      (∀ t : MemoryStream,
        t.importanceSinceLastReflection < cfg.reflectionThreshold →
        t.shouldReflect cfg = false) ∧
      (s.memories.length + (ins.take 2).length ≤ cfg.maxMemories →
        (s.reflect cfg now (ReflectionReply.insights ins)).1.memories =
          s.memories ++ es) := by
  have hunfold : s.reflect cfg now (ReflectionReply.insights ins) =
      ((addInsights cfg now (ins.take 2)
          { s with importanceSinceLastReflection := 0 }).1,
       some (addInsights cfg now (ins.take 2)
          { s with importanceSinceLastReflection := 0 }).2) := by
    unfold MemoryStream.reflect
    rw [if_neg (by rw [hsr]; simp)]
  refine ⟨(addInsights cfg now (ins.take 2)
      { s with importanceSinceLastReflection := 0 }).2,
    by rw [hunfold], ?_, ?_, ?_, ?_, ?_, ?_, ?_⟩
  · rw [addInsights_length]
  · rw [addInsights_length]
    have := List.length_take_le 2 ins
    omega
  · exact addInsights_types cfg now _ _
  · rw [hunfold]
    simp only []
    rw [addInsights_acc]
    simp
  · rw [hunfold]
    simp only []
    unfold MemoryStream.shouldReflect
    apply decide_eq_false
    rintro ⟨h1, _⟩
    rw [addInsights_acc] at h1
    simp only [] at h1
    have hlen : ((ins.take 2).length : ℚ) ≤ 2 := by
      have := List.length_take_le 2 ins
      exact_mod_cast this
    rw [hth] at h1
    nlinarith
  · intro t ht
    unfold MemoryStream.shouldReflect
    apply decide_eq_false
    rintro ⟨h1, _⟩
    exact absurd h1 (not_le.mpr ht)
  · intro hcap
    rw [hunfold]
    simp only []
    exact addInsights_memories cfg now _ _ (by simpa using hcap)

/-- Counterexample to C3 as stated: a store at the threshold and the
well-formed reply `{"insights": ["a", "b"]}`.  After the successful
`reflect`, `importanceSinceLastReflection` is `1.6`, not `0`: the two
appended reflections re-accumulated their own importance. -/
theorem c3_counterexample :
    exStore5.shouldReflect exCfg = true ∧
    (exStore5.reflect exCfg 100
      (ReflectionReply.insights ["a", "b"])).1.importanceSinceLastReflection =
      8/5 ∧
    (exStore5.reflect exCfg 100
      (ReflectionReply.insights ["a", "b"])).1.importanceSinceLastReflection ≠ 0 := by
  have hsr : exStore5.shouldReflect exCfg = true := by decide
  have hunfold : exStore5.reflect exCfg 100 (ReflectionReply.insights ["a", "b"]) =
      ((addInsights exCfg 100 (["a", "b"].take 2)
          { exStore5 with importanceSinceLastReflection := 0 }).1,
       some (addInsights exCfg 100 (["a", "b"].take 2)
          { exStore5 with importanceSinceLastReflection := 0 }).2) := by
    unfold MemoryStream.reflect
    rw [if_neg (by rw [hsr]; simp)]
  refine ⟨hsr, ?_, ?_⟩
  · rw [hunfold]
    simp only []
    rw [addInsights_acc]
    norm_num
  · rw [hunfold]
    simp only []
    rw [addInsights_acc]
    norm_num

/-- Witness for C3 (amended) at the same concrete store. -/
theorem c3_witness :
    exStore5.shouldReflect exCfg = true ∧
    exCfg.reflectionThreshold = 3 ∧
    (exStore5.reflect exCfg 100
      (ReflectionReply.insights ["a", "b"])).1.shouldReflect exCfg = false := by
  refine ⟨by decide, rfl, ?_⟩
  obtain ⟨es, h1, h2, h3, h4, h5, h6, h7, h8⟩ :=
    c3_reflect_success exCfg 100 exStore5 ["a", "b"] (by decide) rfl
  exact h6

/-- **C7** (error handling, amended): `reflect` leaves the store untouched and
adds no entries on a transport failure, an absent response, or a reply that
`JSON.parse` rejects; and when `shouldReflect()` is false `reflect` is a
no-op for every reply.  (A reply that parses but carries no insights list is
*not* covered: it resets the accumulator — see the counterexample.) -/
theorem c7_reflect_failure_noop (cfg : MemoryConfig) (now : ℚ) (s : MemoryStream) :
    (s.shouldReflect cfg = false →
      ∀ reply, s.reflect cfg now reply = (s, none)) ∧
    s.reflect cfg now ReflectionReply.transportFail = (s, none) ∧
    s.reflect cfg now ReflectionReply.noResponse = (s, none) ∧
    s.reflect cfg now ReflectionReply.badJson = (s, none) := by
  refine ⟨?_, ?_, ?_, ?_⟩
  · intro h reply
    unfold MemoryStream.reflect
    rw [if_pos h]
  all_goals
    unfold MemoryStream.reflect
    by_cases h : s.shouldReflect cfg = false
    · rw [if_pos h]
    · rw [if_neg h]
  all_goals rfl

/-- Counterexample to C7 as stated: the reply `{}` is valid JSON but is not a
well-formed structured insight list; on a store satisfying `shouldReflect()`,
`reflect` nevertheless resets `importanceSinceLastReflection` from `3` to `0`
(while adding no entries), so the accumulator is not left untouched. -/
theorem c7_counterexample :
    exStore5.shouldReflect exCfg = true ∧
    exStore5.importanceSinceLastReflection = 3 ∧
    (exStore5.reflect exCfg 100
      ReflectionReply.parsedNoInsights).1.importanceSinceLastReflection = 0 ∧
    (exStore5.reflect exCfg 100 ReflectionReply.parsedNoInsights).1.memories =
      exStore5.memories ∧
    (exStore5.reflect exCfg 100 ReflectionReply.parsedNoInsights).2 = some [] := by
  have hsr : exStore5.shouldReflect exCfg = true := by decide
  have hunfold : exStore5.reflect exCfg 100 ReflectionReply.parsedNoInsights =
      ({ exStore5 with importanceSinceLastReflection := 0 }, some []) := by
    unfold MemoryStream.reflect
    rw [if_neg (by rw [hsr]; simp)]
    rfl
  exact ⟨hsr, rfl, by rw [hunfold], by rw [hunfold], by rw [hunfold]⟩

/-- Witness for C7 (amended): a store with the accumulator still below the
threshold; `reflect` is a no-op, and so are the three failure replies. -/
theorem c7_witness :
    ({ memories := [], importanceSinceLastReflection := 0, nextId := 0 } :
        MemoryStream).shouldReflect exCfg = false ∧
    MemoryStream.reflect exCfg 100 ReflectionReply.badJson
      { memories := [], importanceSinceLastReflection := 0, nextId := 0 } =
      ({ memories := [], importanceSinceLastReflection := 0, nextId := 0 }, none) ∧
    MemoryStream.reflect exCfg 100 (ReflectionReply.insights ["a"])
      { memories := [], importanceSinceLastReflection := 0, nextId := 0 } =
      ({ memories := [], importanceSinceLastReflection := 0, nextId := 0 }, none) := by
  refine ⟨by decide, ?_, ?_⟩
  · exact (c7_reflect_failure_noop exCfg 100 _).2.2.2
  · exact (c7_reflect_failure_noop exCfg 100 _).1 (by decide) _

/-! ### Retrieval lemmas -/

/-- The `scored` array of `retrieve`, with positions. -/
def retrieveScored (rec : ℚ → ℚ) (now : ℚ) (query : String)
    (s : MemoryStream) : List ScoredEntry :=
  (withIdx 0 s.memories).map
    (fun p => ScoredEntry.mk p.1 p.2 (retrieveScore rec now (tokenize query) p.2))

/-- The `scored` array after the descending stable sort. -/
def retrieveSorted (rec : ℚ → ℚ) (now : ℚ) (query : String)
    (s : MemoryStream) : List ScoredEntry :=
  jsSort scoreLe (retrieveScored rec now query s)

/-- The `results` slice (`scored.slice(0, limit)`). -/
def retrieveResults (rec : ℚ → ℚ) (now : ℚ) (query : String) (limit : Nat)
    (s : MemoryStream) : List ScoredEntry :=
  (retrieveSorted rec now query s).take limit

/-- The updated `memories` array after a non-empty `retrieve`: exactly the
positions of the returned entries get `lastAccessed := now`. -/
def retrieveNewMemories (rec : ℚ → ℚ) (now : ℚ) (query : String) (limit : Nat)
    (s : MemoryStream) : List MemoryEntry :=
  (withIdx 0 s.memories).map
    (fun p : Nat × MemoryEntry =>
      if p.1 ∈ (retrieveResults rec now query limit s).map (fun r => r.idx)
      then { p.2 with lastAccessed := now } else p.2)

theorem retrieve_unfold (cfg : MemoryConfig) (rec : ℚ → ℚ) (now : ℚ)
    (query : String) (limit : Nat) (s : MemoryStream)
    (h : ¬ s.memories.length = 0) :
    s.retrieve cfg rec now query limit =
      ({ s with memories := retrieveNewMemories rec now query limit s },
       (retrieveResults rec now query limit s).map
         (fun r => { r.mem with lastAccessed := now })) := by
  unfold MemoryStream.retrieve retrieveNewMemories retrieveResults
    retrieveSorted retrieveScored
  rw [if_neg h]

/-- Every scored element is the entry at its recorded position, scored by the
`recency + importance + relevance` formula. -/
theorem retrieveScored_mem (rec : ℚ → ℚ) (now : ℚ) (query : String)
    (s : MemoryStream) (r : ScoredEntry)
    (hr : r ∈ retrieveScored rec now query s) :
    ∃ h : r.idx < s.memories.length,
      r.mem = s.memories[r.idx] ∧
      r.score = rec (now - s.memories[r.idx].lastAccessed) +
        s.memories[r.idx].importance +
        keywordOverlap (tokenize query) s.memories[r.idx] := by
  obtain ⟨p, hp, hpr⟩ := List.mem_map.mp hr
  obtain ⟨j, hj, hpj⟩ := withIdx_mem 0 s.memories p hp
  subst hpr
  subst hpj
  refine ⟨by simpa using hj, ?_, ?_⟩
  · simp
  · simp [retrieveScore]

theorem retrieveSorted_mem (rec : ℚ → ℚ) (now : ℚ) (query : String)
    (s : MemoryStream) (r : ScoredEntry)
    (hr : r ∈ retrieveSorted rec now query s) :
    ∃ h : r.idx < s.memories.length,
      r.mem = s.memories[r.idx] ∧
      r.score = rec (now - s.memories[r.idx].lastAccessed) +
        s.memories[r.idx].importance +
        keywordOverlap (tokenize query) s.memories[r.idx] :=
  retrieveScored_mem rec now query s r
    ((jsSort_mem scoreLe _ r).mp hr)

/-- The strict descending (score, then input position) order of the sorted
scored array: stability plus sortedness in one statement.  This order is a
strict total order on the scored elements (all positions are distinct), so it
pins the sort result uniquely. -/
theorem retrieveSorted_pairwise (rec : ℚ → ℚ) (now : ℚ) (query : String)
    (s : MemoryStream) :
    List.Pairwise
      (fun a b : ScoredEntry =>
        b.score < a.score ∨ (a.score = b.score ∧ a.idx < b.idx))
      (retrieveSorted rec now query s) := by
  apply pairwise_jsSort
  · intro a b c hab hbc
    rcases hab with h1 | ⟨h1, h2⟩ <;> rcases hbc with h3 | ⟨h3, h4⟩
    · left; linarith
    · left; linarith
    · left; linarith
    · right; exact ⟨h1.trans h3, h2.trans h4⟩
  · unfold retrieveScored
    rw [List.pairwise_map]
    apply List.Pairwise.imp ?_ (withIdx_pairwise_lt 0 s.memories)
    intro p q hpq
    constructor
    · intro hle
      unfold scoreLe at hle
      rw [decide_eq_true_iff] at hle
      dsimp only at hle ⊢
      rcases lt_or_eq_of_le (by linarith :
          retrieveScore rec now (tokenize query) q.2 ≤
          retrieveScore rec now (tokenize query) p.2) with h | h
      · left; exact h
      · right; exact ⟨h.symm, hpq⟩
    · intro hle
      unfold scoreLe at hle
      rw [decide_eq_false_iff_not] at hle
      dsimp only at hle ⊢
      left
      linarith [not_le.mp hle]

theorem retrieveNewMemories_length (rec : ℚ → ℚ) (now : ℚ) (query : String)
    (limit : Nat) (s : MemoryStream) :
    (retrieveNewMemories rec now query limit s).length = s.memories.length := by
  unfold retrieveNewMemories
  rw [List.length_map, withIdx_length]

theorem retrieveNewMemories_get (rec : ℚ → ℚ) (now : ℚ) (query : String)
    (limit : Nat) (s : MemoryStream) (i : Nat) (hi : i < s.memories.length)
    (hi2 : i < (retrieveNewMemories rec now query limit s).length) :
    (retrieveNewMemories rec now query limit s)[i] =
      if i ∈ (retrieveResults rec now query limit s).map (fun r => r.idx)
      then { s.memories[i] with lastAccessed := now } else s.memories[i] := by
  unfold retrieveNewMemories
  rw [List.getElem_map]
  rw [withIdx_getElem 0 s.memories i (by rw [withIdx_length]; exact hi) hi]
  simp

theorem retrieve_selected_mem (rec : ℚ → ℚ) (now : ℚ) (query : String)
    (limit : Nat) (s : MemoryStream) (i : Nat) (hi : i < s.memories.length)
    (hmem : i ∈ (retrieveResults rec now query limit s).map (fun r => r.idx)) :
    ({ s.memories[i] with lastAccessed := now } : MemoryEntry) ∈
      (retrieveResults rec now query limit s).map
        (fun r => { r.mem with lastAccessed := now }) := by
  obtain ⟨r, hr, hridx⟩ := List.mem_map.mp hmem
  have hr_sorted : r ∈ retrieveSorted rec now query s :=
    List.take_subset _ _ hr
  obtain ⟨hlt, hmemeq, _⟩ := retrieveSorted_mem rec now query s r hr_sorted
  have hmm : ({ r.mem with lastAccessed := now } : MemoryEntry) ∈
      (retrieveResults rec now query limit s).map
        (fun r : ScoredEntry => { r.mem with lastAccessed := now }) :=
    List.mem_map_of_mem _ hr
  rw [hmemeq] at hmm
  subst hridx
  exact hmm

/-- **C10** (frame/effect, implicit): `retrieve`'s only mutation is updating
`lastAccessed` on the entries it returns; it never adds, removes, or reorders
stored entries, never changes `id`, `content`, `type`, creation timestamp,
`importance`, or the related-entity list, leaves non-returned entries wholly
unchanged, and leaves `importanceSinceLastReflection` and the id counter
unchanged. -/
theorem c10_retrieve_frame (cfg : MemoryConfig) (rec : ℚ → ℚ) (now : ℚ)
    (query : String) (limit : Nat) (s : MemoryStream) :
    (s.retrieve cfg rec now query limit).1.importanceSinceLastReflection =
      s.importanceSinceLastReflection ∧
    (s.retrieve cfg rec now query limit).1.nextId = s.nextId ∧
    (s.retrieve cfg rec now query limit).1.memories.length =
      s.memories.length ∧
    (∀ i, ∀ hi : i < s.memories.length,
      ∀ hi2 : i < (s.retrieve cfg rec now query limit).1.memories.length,
      ((s.retrieve cfg rec now query limit).1.memories[i].id =
          s.memories[i].id ∧
        (s.retrieve cfg rec now query limit).1.memories[i].content =
          s.memories[i].content ∧
        (s.retrieve cfg rec now query limit).1.memories[i].type =
          s.memories[i].type ∧
        (s.retrieve cfg rec now query limit).1.memories[i].timestamp =
          s.memories[i].timestamp ∧
        (s.retrieve cfg rec now query limit).1.memories[i].importance =
          s.memories[i].importance ∧
        (s.retrieve cfg rec now query limit).1.memories[i].entities =
          s.memories[i].entities) ∧
      ((s.retrieve cfg rec now query limit).1.memories[i] = s.memories[i] ∨
        ((s.retrieve cfg rec now query limit).1.memories[i] =
            { s.memories[i] with lastAccessed := now } ∧
          (s.retrieve cfg rec now query limit).1.memories[i] ∈
            (s.retrieve cfg rec now query limit).2))) := by
  by_cases hemp : s.memories.length = 0
  · have hretr : s.retrieve cfg rec now query limit = (s, []) := by
      unfold MemoryStream.retrieve
      rw [if_pos hemp]
    rw [hretr]
    refine ⟨rfl, rfl, rfl, ?_⟩
    intro i hi _
    omega
  · rw [retrieve_unfold cfg rec now query limit s hemp]
    refine ⟨rfl, rfl, ?_, ?_⟩
    · exact retrieveNewMemories_length rec now query limit s
    · intro i hi hi2
      have hget := retrieveNewMemories_get rec now query limit s i hi
        (by rw [retrieveNewMemories_length]; exact hi)
      by_cases hsel : i ∈ (retrieveResults rec now query limit s).map
          (fun r => r.idx)
      · rw [if_pos hsel] at hget
        simp only []
        rw [hget]
        refine ⟨⟨rfl, rfl, rfl, rfl, rfl, rfl⟩, Or.inr ⟨rfl, ?_⟩⟩
        exact retrieve_selected_mem rec now query limit s i hi hsel
      · rw [if_neg hsel] at hget
        simp only []
        rw [hget]
        exact ⟨⟨rfl, rfl, rfl, rfl, rfl, rfl⟩, Or.inl rfl⟩

/-- Witness for C10 at a concrete store (first conjunct instantiated; the
pointwise conjunct applied at position 0). -/
theorem c10_witness :
    (exStore5.retrieve exCfg (fun _ => 1) 100 "wolf" 2).1.nextId = 5 ∧
    (0 : Nat) < exStore5.memories.length ∧
    (exStore5.retrieve exCfg (fun _ => 1) 100 "wolf"
      2).1.memories.length = 5 := by
  have h := c10_retrieve_frame exCfg (fun _ => 1) 100 "wolf" 2 exStore5
  refine ⟨h.2.1, by decide, ?_⟩
  rw [h.2.2.1]
  rfl

/-- **C4** (functional correctness): on a non-empty store, `retrieve` scores
each entry as `recency + importance + relevance`, with recency the decay
power of the hours since `lastAccessed` (abstracted as the parameter `rec`
applied to the elapsed time, since `Math.pow` is real-valued), importance the
stored value, and relevance the `keywordOverlap` token fraction; the sorted
scored list is a permutation of the scored entries that is strictly
descending in (score, then input position) — descending score with ties
broken by stable input order — and `retrieve` returns the first `limit` of
it (with `lastAccessed` refreshed to `now`), updating exactly the returned
positions in the store. -/
theorem c4_retrieve_top_scored (cfg : MemoryConfig) (rec : ℚ → ℚ) (now : ℚ)
    (query : String) (limit : Nat) (s : MemoryStream)
    (hne : s.memories.length ≠ 0) :
    (retrieveSorted rec now query s).Perm (retrieveScored rec now query s) ∧
    List.Pairwise
      (fun a b : ScoredEntry =>
        b.score < a.score ∨ (a.score = b.score ∧ a.idx < b.idx))
      (retrieveSorted rec now query s) ∧
    (∀ r ∈ retrieveScored rec now query s,
      ∃ h : r.idx < s.memories.length,
        r.mem = s.memories[r.idx] ∧
        r.score = rec (now - s.memories[r.idx].lastAccessed) +
          s.memories[r.idx].importance +
          keywordOverlap (tokenize query) s.memories[r.idx]) ∧
    (retrieveScored rec now query s).length = s.memories.length ∧
    (s.retrieve cfg rec now query limit).2 =
      ((retrieveSorted rec now query s).take limit).map
        (fun r => { r.mem with lastAccessed := now }) ∧
    (s.retrieve cfg rec now query limit).2.length =
      min limit s.memories.length ∧
    (∀ i, ∀ hi : i < s.memories.length,
      ∀ hi2 : i < (s.retrieve cfg rec now query limit).1.memories.length,
      (s.retrieve cfg rec now query limit).1.memories[i] =
        if i ∈ (retrieveResults rec now query limit s).map (fun r => r.idx)
        then { s.memories[i] with lastAccessed := now } else s.memories[i]) := by
  refine ⟨jsSort_perm scoreLe _, retrieveSorted_pairwise rec now query s,
    fun r hr => retrieveScored_mem rec now query s r hr, ?_, ?_, ?_, ?_⟩
  · unfold retrieveScored
    rw [List.length_map, withIdx_length]
  · rw [retrieve_unfold cfg rec now query limit s hne]
    unfold retrieveResults
    rfl
  · rw [retrieve_unfold cfg rec now query limit s hne]
    simp only []
    rw [List.length_map]
    unfold retrieveResults retrieveSorted
    rw [List.length_take, jsSort_length]
    unfold retrieveScored
    rw [List.length_map, withIdx_length]
  · intro i hi hi2
    have hmem_eq : (s.retrieve cfg rec now query limit).1.memories =
        retrieveNewMemories rec now query limit s := by
      rw [retrieve_unfold cfg rec now query limit s hne]
    have hi2' : i < (retrieveNewMemories rec now query limit s).length := by
      rw [retrieveNewMemories_length]; exact hi
    simp only [hmem_eq]
    exact retrieveNewMemories_get rec now query limit s i hi hi2'

/-- Witness for C4 at a concrete store: retrieving 2 of 5 entries returns a
list of length 2. -/
theorem c4_witness :
    exStore5.memories.length ≠ 0 ∧
    (exStore5.retrieve exCfg (fun _ => 1) 100 "wolf" 2).2.length = 2 := by
  have h := c4_retrieve_top_scored exCfg (fun _ => 1) 100 "wolf" 2 exStore5
    (by decide)
  refine ⟨by decide, ?_⟩
  rw [h.2.2.2.2.2.1]
  rfl

/-! ## Behaviour controller (`src/ai/npcAI.ts`) -/

/-- A world position (`THREE.Vector3`). -/
def Pos : Type := ℚ × ℚ × ℚ

instance : DecidableEq Pos := by unfold Pos; infer_instance

instance : Repr Pos := by unfold Pos; infer_instance

instance : Inhabited Pos := ⟨((0 : ℚ), (0 : ℚ), (0 : ℚ))⟩

/-- Squared 3D distance (`distanceToSquared`).  Distance comparisons
`distanceTo(p) < r` / `length() > r` from the source are modelled on squares
(`distSq < r²` etc.), which is equivalent for the non-negative radii the
game configures, and avoids the irrational square root. -/
def distSq (a b : Pos) : ℚ :=
  (a.1 - b.1) ^ 2 + (a.2.1 - b.2.1) ^ 2 + (a.2.2 - b.2.2) ^ 2

/-- Squared planar distance: the movement code zeroes `direction.y` before
taking the length, so steering distances ignore the vertical axis. -/
def distSqXZ (a b : Pos) : ℚ :=
  (a.1 - b.1) ^ 2 + (a.2.2 - b.2.2) ^ 2

/-- `CombatDisposition` (`src/core/constants.ts`). -/
inductive Disposition where
  | aggressive
  | defensive
  | cautious
deriving DecidableEq, Repr

/-- One nearby character of an `Observation` (modelled from the spec;
`api.ts` is not among the provided sources): `{id, health, isDead}`. -/
structure ObservedChar where
  id : String
  health : ℚ
  isDead : Bool
deriving DecidableEq, Repr

/-- One nearby hostile creature of an `Observation` (modelled from the spec):
`{id, health, isDead, isAggressive}`. -/
structure ObservedAnimal where
  id : String
  health : ℚ
  isDead : Bool
  isAggressive : Bool
deriving DecidableEq, Repr

/-- An `Observation` snapshot (modelled from the spec): self status plus the
nearby characters and nearby hostile creatures. -/
structure Observation where
  selfHealth : ℚ
  nearbyCharacters : List ObservedChar
  nearbyAnimals : List ObservedAnimal
deriving DecidableEq, Repr

/-- Whether a live entity is a `Character` or an `Animal` (the two concrete
`Entity` subclasses the controller distinguishes with `instanceof`). -/
inductive EntityKind where
  | character
  | animal
deriving DecidableEq, Repr

/-- A live world entity (`game.entities` element), with the fields the
controller reads.  `lastAttackerId` models the `lastAttacker` object
reference by id. -/
structure WEntity where
  id : String
  name : String
  kind : EntityKind
  isDead : Bool
  pos : Pos
  animalType : String
  isAggressive : Bool
  lastAttackerId : Option String
deriving DecidableEq, Repr

/-- An interactable scene resource (`Object3D` with `userData`), with the
fields the controller reads. -/
structure WResource where
  id : String
  resourceType : Option String
  visible : Bool
  isInteractable : Bool
  health : ℚ
  pos : Pos
deriving DecidableEq, Repr

/-- The world as seen by one controller tick: the entity list, the
interactable scene objects, and the locally controlled player character. -/
structure World where
  entities : List WEntity
  resources : List WResource
  activeCharacterId : Option String
deriving DecidableEq, Repr

/-- `InventoryItem` (only carried around by the controller, never
inspected). -/
structure Item where
  name : String
  count : Nat
deriving DecidableEq, Repr

/-- The controller's `target` reference (`Entity | Object3D`), by id. -/
inductive TargetRef where
  | entity (id : String)
  | resource (id : String)
deriving DecidableEq, Repr

/-- `persistentAction`: `{type, targetType?, targetId?}`. -/
structure PersistentAction where
  type : String
  targetType : Option String
  targetId : Option String
deriving DecidableEq, Repr

/-- `AI_CONFIG` from `src/core/constants.ts` (values present in source). -/
structure AIConfigT where
  apiCallCooldown : ℚ
  affectedCooldown : ℚ
  actionTimerBase : ℚ
  actionTimerVariance : ℚ
  chatDecisionDelay : ℚ
  interactionDistance : ℚ
  attackDistance : ℚ
  followDistance : ℚ
  stoppingDistance : ℚ
deriving DecidableEq, Repr

def AI_CONFIG : AIConfigT :=
  { apiCallCooldown := 30000
    affectedCooldown := 15000
    actionTimerBase := 5
    actionTimerVariance := 5
    chatDecisionDelay := 7000
    interactionDistance := 3
    attackDistance := 2
    followDistance := 5
    stoppingDistance := 3 }

/-- Modelled from the spec: `REFLEX_CONFIG` is declared in
`src/core/constants.ts` but its values are not part of the provided sources
(the spec fixes `fleeHealthThreshold = 0.2` by example and leaves the
cooldown, the cautious-fight threshold and the flee duration as configured
constants); everything is kept as a parameter. -/
structure ReflexConfig where
  reflexCooldown : ℚ
  fleeHealthThreshold : ℚ
  cautiousFightThreshold : ℚ
  fleeDuration : ℚ
deriving DecidableEq, Repr

/-- The mutable state of one `AIController` together with the fields it reads
from its `Character` (`selfId` … `disposition`).  `chatDecisionTimer` models
whether the chat-decision timeout handle is non-null. -/
structure Ctrl where
  aiState : String
  previousAiState : String
  homePosition : Pos
  destination : Option Pos
  actionTimer : ℚ
  interactionDistance : ℚ
  attackDistance : ℚ
  followDistance : ℚ
  stoppingDistance : ℚ
  searchRadius : ℚ
  roamRadius : ℚ
  target : Option TargetRef
  observation : Option Observation
  lastObservation : Option Observation
  persona : String
  currentIntent : String
  targetAction : Option String
  message : Option String
  tradeItemsGive : List Item
  tradeItemsReceive : List Item
  lastApiCallTime : ℚ
  apiCallCooldown : ℚ
  persistentAction : Option PersistentAction
  chatDecisionTimer : Bool
  lastLoggedAttackTargetId : Option String
  memoryStream : MemoryStream
  lastReflexTime : ℚ
  isReflexAction : Bool
  selfId : String
  selfName : String
  selfPos : Pos
  maxHealth : ℚ
  isDead : Bool
  isPerformingAction : Bool
  lastAttackerId : Option String
  disposition : Disposition
deriving DecidableEq, Repr

/-- The movement command a tick returns. -/
structure MoveState where
  forward : ℚ
  right : ℚ
  jump : Bool
  sprint : Bool
  interact : Bool
  attack : Bool
deriving DecidableEq, Repr

def noopMove : MoveState :=
  { forward := 0, right := 0, jump := false, sprint := false,
    interact := false, attack := false }

/-- The ambient inputs of one controller step: wall clock, frame delta, the
random draws the source takes from `Math.random()`, the freshly built
observation, the world, and the flee/fallback destinations (which involve
`Math.cos`/`normalize()`/`getTerrainHeight`, i.e. real-valued collaborator
computations, abstracted as inputs). -/
structure Env where
  now : ℚ
  deltaTime : ℚ
  apiJitter : ℚ
  timerRand : ℚ
  resetRand : ℚ
  apiTimerRand : ℚ
  fallbackDest : Pos
  fleeDest : Pos → Pos → ℚ → Pos
  newObs : Observation
  world : World

/-- Resolve an entity reference by id against the live entity list. -/
def resolveEntity (w : World) (id : String) : Option WEntity :=
  w.entities.find? (fun e => decide (e.id = id))

/-- `findAttacker()`: the character's `lastAttacker`, if alive and within the
search radius (`distanceToSquared < searchRadius²`). -/
def findAttacker (w : World) (c : Ctrl) : Option WEntity :=
  match c.lastAttackerId.bind (resolveEntity w) with
  | some attacker =>
    if ¬ attacker.isDead ∧ distSq c.selfPos attacker.pos < c.searchRadius * c.searchRadius
    then some attacker else none
  | none => none

/-- Running-minimum search shared by `findNearestHostile`,
`findNearestResource` and `findNearestAnimal`: scan the list, keep the
candidate with the smallest `d` below the radius bound `rsq`, first
occurrence winning ties (`<` comparisons only).  The source's
`minDistanceSq` variable always equals `d best` (`Infinity` ↔ `none`), and
`findNearestHostile`'s initial `minDistSq = searchRadius²` makes its single
`d < minDistSq` test equal to this `d < rsq ∧ d < d best`. -/
def nearestAux (cand : α → Bool) (d : α → ℚ) (rsq : ℚ) :
    List α → Option α → Option α
  | [], best => best
  | e :: es, best =>
    if cand e then
      let ok : Bool := match best with
        | none => decide (d e < rsq)
        | some b => decide (d e < rsq ∧ d e < d b)
      if ok then nearestAux cand d rsq es (some e)
      else nearestAux cand d rsq es best
    else nearestAux cand d rsq es best

/-- `findNearestHostile()`: nearest live aggressive `Animal` other than self
within the search radius. -/
def findNearestHostile (w : World) (c : Ctrl) : Option WEntity :=
  nearestAux
    (fun e => decide (¬ (e.id = c.selfId ∨ e.isDead) ∧
      e.kind = EntityKind.animal ∧ e.isAggressive = true))
    (fun e => distSq c.selfPos e.pos)
    (c.searchRadius * c.searchRadius)
    w.entities none

/-- `findNearestThreat()`: the last attacker, else the nearest hostile. -/
def findNearestThreat (w : World) (c : Ctrl) : Option WEntity :=
  match findAttacker w c with
  | some a => some a
  | none => findNearestHostile w c

/-- The result of `detectNearbyCombat()`. -/
structure CombatEvent where
  attacker : WEntity
  victimName : String
  victimIsCharacter : Bool
deriving DecidableEq, Repr

/-- Outcome of the character scan inside `detectNearbyCombat`: found an
event, aborted (`return null` because self is the attacker), or fell through
to the animal scan. -/
inductive CombatScan where
  | found (ce : CombatEvent)
  | abort
  | next
deriving DecidableEq, Repr

/-- First loop of `detectNearbyCombat`: a tracked nearby character lost
health; find its live attacker; `return null` if we are that attacker. -/
def scanCombatChars (w : World) (selfId : String) (lastObs : Observation) :
    List ObservedChar → CombatScan
  | [] => CombatScan.next
  | curr :: rest =>
    match lastObs.nearbyCharacters.find? (fun ch => decide (ch.id = curr.id)) with
    | some prev =>
      if curr.health < prev.health ∧ curr.isDead = false then
        match w.entities.find?
            (fun e => decide (e.id = curr.id ∧ e.kind = EntityKind.character)) with
        | some victim =>
          match victim.lastAttackerId.bind (resolveEntity w) with
          | some att =>
            if att.isDead = false then
              if att.id = selfId then CombatScan.abort
              else CombatScan.found
                { attacker := att, victimName := curr.id, victimIsCharacter := true }
            else scanCombatChars w selfId lastObs rest
          | none => scanCombatChars w selfId lastObs rest
        | none => scanCombatChars w selfId lastObs rest
      else scanCombatChars w selfId lastObs rest
    | none => scanCombatChars w selfId lastObs rest

/-- Second loop of `detectNearbyCombat`: an aggressive nearby animal lost
health; the animal itself is the threat. -/
def scanCombatAnimals (w : World) (lastObs : Observation) :
    List ObservedAnimal → Option CombatEvent
  | [] => none
  | curr :: rest =>
    match lastObs.nearbyAnimals.find? (fun a => decide (a.id = curr.id)) with
    | some prev =>
      if curr.health < prev.health ∧ curr.isDead = false ∧ curr.isAggressive = true then
        match w.entities.find?
            (fun e => decide (e.id = curr.id ∧ e.kind = EntityKind.animal)) with
        | some animal =>
          if animal.isDead = false then
            some { attacker := animal, victimName := "someone",
                   victimIsCharacter := false }
          else scanCombatAnimals w lastObs rest
        | none => scanCombatAnimals w lastObs rest
      else scanCombatAnimals w lastObs rest
    | none => scanCombatAnimals w lastObs rest

/-- `detectNearbyCombat()`. -/
def detectNearbyCombat (w : World) (c : Ctrl) : Option CombatEvent :=
  match c.observation, c.lastObservation with
  | some obs, some lastObs =>
    match scanCombatChars w c.selfId lastObs obs.nearbyCharacters with
    | CombatScan.found ce => some ce
    | CombatScan.abort => none
    | CombatScan.next => scanCombatAnimals w lastObs obs.nearbyAnimals
  | _, _ => none

/-- `encodeActionMemory`: the `typeMap` table routing an action kind to a
memory type and importance, then one `memoryStream.add`. -/
def encodeActionMemory (mcfg : MemoryConfig) (now : ℚ) (action : String)
    (targetName : String) (details : String) (c : Ctrl) : Ctrl :=
  let config : MemoryType × ℚ :=
    if action = "attack" then (MemoryType.episode, mcfg.importanceCombat)
    else if action = "chat" then (MemoryType.episode, mcfg.importanceConversation)
    else if action = "trade" then (MemoryType.episode, mcfg.importanceTrade)
    else if action = "follow" then (MemoryType.episode, mcfg.importanceConversation)
    else if action = "death" then (MemoryType.observation, mcfg.importanceDeath)
    else (MemoryType.observation, 3/10)
  { c with memoryStream :=
      (c.memoryStream.add mcfg now details config.1 config.2 [targetName]).1 }

/-- `triggerAttack`: blocked while a non-reflex deliberate action other than
`attack` is in progress; otherwise locks onto the target with a persistent
by-id attack goal and records an episodic memory.  (Event logging and the
intent display are external collaborators.) -/
def triggerAttack (mcfg : MemoryConfig) (now : ℚ) (c : Ctrl)
    (target : WEntity) (intent : String) : Ctrl :=
  let blocked : Bool := match c.isReflexAction, c.targetAction with
    | false, some a => decide (¬ a = "attack")
    | _, _ => false
  if blocked then c
  else
    encodeActionMemory mcfg now "attack" target.name
      ("I decided to fight " ++ target.name ++ ": " ++ intent)
      { c with
        target := some (TargetRef.entity target.id)
        targetAction := some "attack"
        persistentAction :=
          some { type := "attack", targetType := none, targetId := some target.id }
        aiState := "movingToTarget"
        isReflexAction := true
        currentIntent := intent }

/-- `triggerFlee`: unconditionally flees the threat: the destination is
`selfPos + normalize(selfPos - threatPos) * roamRadius` (then terrain-height
adjusted), a real-valued computation abstracted as `env.fleeDest`; clears the
target and the persistent goal, enters `fleeing`, and records an episodic
memory. -/
def triggerFlee (rcfg : ReflexConfig) (mcfg : MemoryConfig) (env : Env)
    (c : Ctrl) (threat : WEntity) (intent : String) : Ctrl :=
  encodeActionMemory mcfg env.now "attack" threat.name
    ("I fled from " ++ threat.name ++ ": " ++ intent)
    { c with
      destination := some (env.fleeDest c.selfPos threat.pos c.roamRadius)
      target := none
      targetAction := none
      persistentAction := none
      aiState := "fleeing"
      isReflexAction := true
      actionTimer := rcfg.fleeDuration
      currentIntent := intent }

/-- `evaluateReflex()`: cooldown gate, observation gate, `deciding` gate,
then the five-priority rule cascade.  Every priority that resolves a concrete
target sets `lastReflexTime` before invoking its trigger (so a blocked
`triggerAttack` still consumes the cooldown, as in the source). -/
def evaluateReflex (rcfg : ReflexConfig) (mcfg : MemoryConfig) (env : Env)
    (c : Ctrl) : Ctrl :=
  if env.now - c.lastReflexTime < rcfg.reflexCooldown then c
  else match c.observation with
  | none => c
  | some obs =>
    if c.aiState = "deciding" then c
    else
      let selfHealth := obs.selfHealth
      let healthFrac := selfHealth / c.maxHealth
      let disposition := c.disposition
      -- Priority 1: low health, not already fleeing
      let p1 : Option Ctrl :=
        if healthFrac < rcfg.fleeHealthThreshold ∧ ¬ c.aiState = "fleeing" then
          match findNearestThreat env.world c with
          | some threat =>
            some (triggerFlee rcfg mcfg env { c with lastReflexTime := env.now }
              threat "Low health, retreating!")
          | none => none
        else none
      match p1 with
      | some c1 => c1
      | none =>
        -- Priority 2: self lost health since the previous observation
        let p2 : Option Ctrl :=
          match c.lastObservation with
          | some lastObs =>
            if selfHealth < lastObs.selfHealth then
              match findAttacker env.world c with
              | some attacker =>
                let c' := { c with lastReflexTime := env.now }
                if disposition = Disposition.cautious ∧
                    healthFrac < rcfg.cautiousFightThreshold then
                  some (triggerFlee rcfg mcfg env c' attacker
                    "Hurt, running away!")
                else
                  some (triggerAttack mcfg env.now c' attacker "Defending myself!")
              | none => none
            else none
          | none => none
        match p2 with
        | some c2 => c2
        | none =>
          -- Priority 3: a nearby entity is under attack
          match detectNearbyCombat env.world c with
          | some ce =>
            let c' := { c with lastReflexTime := env.now }
            if disposition = Disposition.aggressive then
              triggerAttack mcfg env.now c' ce.attacker
                ("Helping " ++ ce.victimName ++ "!")
            else if disposition = Disposition.defensive ∧
                ce.victimIsCharacter = true then
              triggerAttack mcfg env.now c' ce.attacker
                ("Protecting " ++ ce.victimName ++ "!")
            else if disposition = Disposition.cautious then
              triggerFlee rcfg mcfg env c' ce.attacker "Danger nearby, fleeing!"
            else c'
          | none =>
            -- Priority 4 / 5: hostile nearby
            if disposition = Disposition.aggressive ∧
                ¬ c.aiState = "movingToTarget" then
              match findNearestHostile env.world c with
              | some hostile =>
                triggerAttack mcfg env.now { c with lastReflexTime := env.now }
                  hostile "Engaging hostile creature!"
              | none => c
            else if disposition = Disposition.cautious ∧ c.aiState = "idle" then
              match findNearestHostile env.world c with
              | some hostile =>
                if distSq c.selfPos hostile.pos <
                    (c.searchRadius * (1/2)) ^ 2 then
                  triggerFlee rcfg mcfg env { c with lastReflexTime := env.now }
                    hostile "Hostile creature nearby!"
                else c
              | none => c
            else c

/-- `resetStateAfterAction()`: back to idle, everything cleared, next action
timer randomized to `3 + Math.random() * 4`. -/
def resetStateAfterAction (env : Env) (c : Ctrl) : Ctrl :=
  { c with
    aiState := "idle"
    target := none
    targetAction := none
    message := none
    tradeItemsGive := []
    tradeItemsReceive := []
    persistentAction := none
    isReflexAction := false
    actionTimer := 3 + env.resetRand * 4
    lastLoggedAttackTargetId := none }

/-- `findNearestResource(resourceType)`: nearest visible, interactable,
positive-health scene resource of that type within the search radius
(`minDistanceSq` starts at `Infinity`; scene traversal order = list order). -/
def findNearestResource (w : World) (c : Ctrl) (resourceType : String) :
    Option WResource :=
  nearestAux
    (fun r => decide (r.isInteractable = true ∧ r.resourceType = some resourceType ∧
      r.visible = true ∧ r.health > 0))
    (fun r => distSq c.selfPos r.pos)
    (c.searchRadius * c.searchRadius)
    w.resources none

/-- `findNearestAnimal(animalType)`: nearest live animal of that type within
the search radius. -/
def findNearestAnimal (w : World) (c : Ctrl) (animalType : String) :
    Option WEntity :=
  nearestAux
    (fun e => decide (e.kind = EntityKind.animal ∧ e.animalType = animalType ∧
      e.isDead = false))
    (fun e => distSq c.selfPos e.pos)
    (c.searchRadius * c.searchRadius)
    w.entities none

/-- `handleTargetLostOrDepleted()`: persistent attack by id → re-resolve that
identity (alive, within search radius) or drop and reset; persistent attack
by category → nearest matching resource/animal or drop and reset; otherwise
reset. -/
def handleTargetLostOrDepleted (env : Env) (c : Ctrl) : Ctrl :=
  let c := { c with lastLoggedAttackTargetId := none }
  match c.persistentAction with
  | some pa =>
    if pa.type = "attack" then
      match pa.targetId with
      | some targetId =>
        match env.world.entities.find?
            (fun e => decide (e.id = targetId ∧ e.isDead = false)) with
        | some targetEntity =>
          if distSq c.selfPos targetEntity.pos < c.searchRadius * c.searchRadius then
            { c with
                target := some (TargetRef.entity targetEntity.id)
                aiState := "movingToTarget" }
          else resetStateAfterAction env { c with persistentAction := none }
        | none => resetStateAfterAction env { c with persistentAction := none }
      | none =>
        match pa.targetType with
        | some targetType =>
          let nextTarget : Option TargetRef :=
            if targetType = "wood" ∨ targetType = "stone" ∨ targetType = "herb" then
              (findNearestResource env.world c targetType).map
                (fun r => TargetRef.resource r.id)
            else
              (findNearestAnimal env.world c targetType).map
                (fun e => TargetRef.entity e.id)
          match nextTarget with
          | some t =>
            { c with target := some t, aiState := "movingToTarget" }
          | none => resetStateAfterAction env { c with persistentAction := none }
        | none => resetStateAfterAction env { c with persistentAction := none }
    else resetStateAfterAction env c
  | none => resetStateAfterAction env c

/-- `fallbackToDefaultBehavior()`: roam to a random point within the roam
radius of home (the trigonometry and terrain height are abstracted as
`env.fallbackDest`), clearing the current intent state. -/
def fallbackToDefaultBehavior (env : Env) (c : Ctrl) : Ctrl :=
  { c with
    aiState := "roaming"
    destination := some env.fallbackDest
    target := none
    targetAction := none
    message := none
    tradeItemsGive := []
    tradeItemsReceive := []
    persistentAction := none
    isReflexAction := false
    currentIntent := "Exploring"
    lastLoggedAttackTargetId := none }

/-- The structured decision reply (`actionData`).  `intent`/`message` use
`Option` for JS falsiness of absent fields. -/
structure ActionData where
  action : String
  target_id : Option String
  message : Option String
  give_items : Option (List Item)
  receive_items : Option (List Item)
  intent : Option String
deriving DecidableEq, Repr

/-- The state wipe at the top of `setActionFromAPI` (after the dead check). -/
def apiResetFields (env : Env) (data : ActionData) (c : Ctrl) : Ctrl :=
  { c with
    currentIntent := data.intent.getD "Thinking..."
    destination := none
    target := none
    targetAction := none
    message := none
    tradeItemsGive := []
    tradeItemsReceive := []
    persistentAction := none
    lastLoggedAttackTargetId := none
    isReflexAction := false
    actionTimer := 5 + env.apiTimerRand * 5 }

/-- `setActionFromAPI(actionData)`: discard the result if dead; otherwise
wipe the intent state and dispatch on the action string, resolving the target
id against live entities first, then interactable scene objects. -/
def setActionFromAPI (env : Env) (data : ActionData) (c : Ctrl) : Ctrl :=
  if c.isDead then { c with aiState := "dead" }
  else
    let c := apiResetFields env data c
    match data.action, data.target_id with
    | "attack", some targetId =>
      match resolveEntity env.world targetId with
      | some foundTarget =>
        if foundTarget.kind = EntityKind.character then
          { c with
            persistentAction :=
              some (PersistentAction.mk "attack" none (some foundTarget.id))
            target := some (TargetRef.entity foundTarget.id)
            targetAction := some "attack"
            aiState := "movingToTarget" }
        else
          -- animals always carry an `animalType`
          let targetType := foundTarget.animalType
          let c := { c with
            persistentAction :=
              some (PersistentAction.mk "attack" (some targetType) none) }
          match findNearestAnimal env.world c targetType with
          | some nearestTarget =>
            { c with
              target := some (TargetRef.entity nearestTarget.id)
              targetAction := some "attack"
              aiState := "movingToTarget" }
          | none => handleTargetLostOrDepleted env c
      | none =>
        match env.world.resources.find?
            (fun r => decide (r.id = targetId ∧ r.isInteractable = true ∧
              r.visible = true)) with
        | some foundTarget =>
          match foundTarget.resourceType with
          | some targetType =>
            let c := { c with
              persistentAction :=
                some (PersistentAction.mk "attack" (some targetType) none) }
            match (if targetType = "wood" ∨ targetType = "stone" ∨
                targetType = "herb"
              then (findNearestResource env.world c targetType).map
                (fun r => TargetRef.resource r.id)
              else (findNearestAnimal env.world c targetType).map
                (fun e => TargetRef.entity e.id)) with
            | some nearestTarget =>
              { c with
                target := some nearestTarget
                targetAction := some "attack"
                aiState := "movingToTarget" }
            | none => handleTargetLostOrDepleted env c
          | none =>
            -- not a known resource/animal type: plain non-persistent target
            { c with
              target := some (TargetRef.resource foundTarget.id)
              targetAction := some "attack"
              aiState := "movingToTarget" }
        | none => handleTargetLostOrDepleted env c
    | "chat", some targetId =>
      match env.world.entities.find? (fun e => decide (e.id = targetId ∧
          e.kind = EntityKind.character ∧ e.isDead = false)) with
      | some targetEntity =>
        { c with
          target := some (TargetRef.entity targetEntity.id)
          targetAction := some "chat"
          message := some (data.message.getD "...")
          aiState := "movingToTarget" }
      | none => handleTargetLostOrDepleted env c
    | "trade", some targetId =>
      match data.give_items, data.receive_items with
      | some giveItems, some receiveItems =>
        match env.world.entities.find? (fun e => decide (e.id = targetId ∧
            e.kind = EntityKind.character ∧ e.isDead = false)) with
        | some targetEntity =>
          if env.world.activeCharacterId = some targetEntity.id then
            { c with
              target := some (TargetRef.entity targetEntity.id)
              targetAction := some "trade"
              tradeItemsGive := giveItems
              tradeItemsReceive := receiveItems
              aiState := "movingToTarget" }
          else fallbackToDefaultBehavior env c
        | none => handleTargetLostOrDepleted env c
      | _, _ => fallbackToDefaultBehavior env c
    | "follow", some targetId =>
      match env.world.entities.find? (fun e => decide (e.id = targetId ∧
          e.kind = EntityKind.character ∧ e.isDead = false)) with
      | some targetEntity =>
        { c with
          target := some (TargetRef.entity targetEntity.id)
          targetAction := some "follow"
          aiState := "movingToTarget" }
      | none => fallbackToDefaultBehavior env c
    | _, _ => fallbackToDefaultBehavior env c

/-- JS `number.toFixed(0)`, modelled by rounding to the nearest integer (the
half-way rounding direction differs from JS at exact halves; no claim reads
these strings).  Source string literals that contain an apostrophe are
reproduced without it throughout this file. -/
def jsToFixed0 (q : ℚ) : String := toString (round q)

/-- The "appeared nearby" loop of `encodeObservationMemories`. -/
def encodeAppearances (mcfg : MemoryConfig) (now : ℚ) (lastIds : List String) :
    List ObservedChar → MemoryStream → MemoryStream
  | [], ms => ms
  | ch :: rest, ms =>
    if ¬ lastIds.contains ch.id ∧ ch.isDead = false then
      encodeAppearances mcfg now lastIds rest
        (ms.add mcfg now (ch.id ++ " appeared nearby") MemoryType.observation
          mcfg.importanceEnvironmental [ch.id]).1
    else encodeAppearances mcfg now lastIds rest ms

/-- The "died nearby" loop of `encodeObservationMemories`. -/
def encodeDeaths (mcfg : MemoryConfig) (now : ℚ) (lastChars : List ObservedChar) :
    List ObservedChar → MemoryStream → MemoryStream
  | [], ms => ms
  | ch :: rest, ms =>
    match lastChars.find? (fun p => decide (p.id = ch.id)) with
    | some prev =>
      if prev.isDead = false ∧ ch.isDead = true then
        encodeDeaths mcfg now lastChars rest
          (ms.add mcfg now (ch.id ++ " died nearby") MemoryType.observation
            mcfg.importanceCombat [ch.id]).1
      else encodeDeaths mcfg now lastChars rest ms
    | none => encodeDeaths mcfg now lastChars rest ms

/-- `encodeObservationMemories()`: encode health loss (and the near-death
check exactly as written in the source, which compares
`health < health * 0.3`), newly appeared characters, and nearby deaths. -/
def encodeObservationMemories (mcfg : MemoryConfig) (env : Env) (c : Ctrl) : Ctrl :=
  match c.observation, c.lastObservation with
  | some obs, some lastObs =>
    let ms0 := c.memoryStream
    let ms1 :=
      if obs.selfHealth < lastObs.selfHealth then
        let damage := lastObs.selfHealth - obs.selfHealth
        let attacker := c.lastAttackerId.bind (resolveEntity env.world)
        let attackerName := (attacker.map (fun a => a.name)).getD "something"
        let attackerEntities : List String :=
          match attacker with
          | some _ => [attackerName]
          | none => []
        let msA := (ms0.add mcfg env.now
          ("I was hit by " ++ attackerName ++ " and lost " ++ jsToFixed0 damage ++
            " health (now " ++ jsToFixed0 obs.selfHealth ++ ")")
          MemoryType.observation mcfg.importanceCombat attackerEntities).1
        if obs.selfHealth < obs.selfHealth * (3/10) ∧
            lastObs.selfHealth ≥ obs.selfHealth * (3/10) then
          (msA.add mcfg env.now
            ("I nearly died from " ++ attackerName ++ "s attack")
            MemoryType.observation mcfg.importanceNearDeath attackerEntities).1
        else msA
      else ms0
    let lastIds := lastObs.nearbyCharacters.map (fun ch => ch.id)
    let ms2 := encodeAppearances mcfg env.now lastIds obs.nearbyCharacters ms1
    let ms3 := encodeDeaths mcfg env.now lastObs.nearbyCharacters
      obs.nearbyCharacters ms2
    { c with memoryStream := ms3 }
  | _, _ => c

/-- The synchronous prefix of the `async decideNextAction()`: dead guard,
memory encoding, the `following`/`deciding` guard, then `aiState :=
"deciding"` while the remote call is outstanding.  The boolean reports
whether a remote request was actually issued. -/
def decideNextActionSync (mcfg : MemoryConfig) (env : Env) (c : Ctrl) :
    Ctrl × Bool :=
  if c.isDead then ({ c with aiState := "dead" }, false)
  else
    let c1 := encodeObservationMemories mcfg env c
    if c1.aiState = "following" ∨ c1.aiState = "deciding" then (c1, false)
    else ({ c1 with aiState := "deciding" }, true)

/-- The required proximity selected by `targetAction` in the
`movingToTarget` branch: `attack` → `attackDistance`, `follow` →
`followDistance`, chat/trade (everything else) → `interactionDistance`. -/
def requiredDistance (c : Ctrl) (targetAction : String) : ℚ :=
  if targetAction = "attack" then c.attackDistance
  else if targetAction = "follow" then c.followDistance
  else c.interactionDistance

/-- `this.target instanceof Character` for a resolved target. -/
def isCharacterEntity : Option WEntity → Bool
  | some e => decide (e.kind = EntityKind.character)
  | none => false

/-- The in-range action dispatch of the `movingToTarget` branch (target
already resolved and valid; `targetEntity` is `some` when the target is a
live entity, `none` for a scene resource).  Combat, dialogue, trading,
facing, and the event log are external collaborators; their invocation
points are where the controller state changes below. -/
def movingToTargetInRange (mcfg : MemoryConfig) (env : Env) (c : Ctrl)
    (targetAction : String) (targetEntity : Option WEntity) (dsq : ℚ) :
    MoveState × Ctrl :=
  if targetAction = "attack" then
    -- CombatSystem.initiateAttack is external; within one tick the world is
    -- static, so the post-attack validity re-check only re-tests distance
    if dsq > c.searchRadius * c.searchRadius then
      (noopMove, handleTargetLostOrDepleted env c)
    else (noopMove, c)
  else if targetAction = "chat" ∧ c.message.isSome ∧
      c.chatDecisionTimer = false ∧ isCharacterEntity targetEntity = true then
    match targetEntity, c.message with
    | some e, some msg =>
      -- the target controller reset and handleChatResponse are external
      let c1 := encodeActionMemory mcfg env.now "chat" e.name
        ("I said \"" ++ msg ++ "\" to " ++ e.name) c
      (noopMove, resetStateAfterAction env c1)
    | _, _ => (noopMove, c)
  else if targetAction = "trade" ∧ isCharacterEntity targetEntity = true then
    match targetEntity with
    | some e =>
      -- tradingSystem.requestTradeUI is external
      let c1 := encodeActionMemory mcfg env.now "trade" e.name
        ("I traded with " ++ e.name) c
      (noopMove, resetStateAfterAction env c1)
    | none => (noopMove, c)
  else if targetAction = "follow" then
    (noopMove, { c with aiState := "following", destination := none })
  else (noopMove, c)

/-- `computeAIMoveState(deltaTime)`: the per-tick step.  Returns the movement
command, the next controller state, and whether a remote decision request was
issued this tick.  `updateObservation` (in `api.ts`, not among the provided
sources) is modelled from the spec: the controller keeps the freshly built
observation and the immediately-previous one. -/
def computeAIMoveState (rcfg : ReflexConfig) (mcfg : MemoryConfig) (env : Env)
    (c0 : Ctrl) : MoveState × Ctrl × Bool :=
  if c0.isDead then (noopMove, { c0 with aiState := "dead" }, false)
  else
    let c1 : Ctrl :=
      { c0 with lastObservation := c0.observation, observation := some env.newObs }
    let c2 := evaluateReflex rcfg mcfg env c1
    let canCallApi : Bool :=
      decide (env.now - c2.lastApiCallTime ≥ c2.apiCallCooldown + env.apiJitter)
    let c3 := { c2 with actionTimer := c2.actionTimer - env.deltaTime }
    let afterTimer : Ctrl × Bool :=
      if c3.actionTimer ≤ 0 ∧ c3.chatDecisionTimer = false then
        let cT := { c3 with actionTimer :=
          AI_CONFIG.actionTimerBase + env.timerRand * AI_CONFIG.actionTimerVariance }
        if canCallApi then
          let r := decideNextActionSync mcfg env cT
          ({ r.1 with lastApiCallTime := env.now }, r.2)
        else (cT, false)
      else (c3, false)
    let c4 := afterTimer.1
    let issued := afterTimer.2
    let dispatch : MoveState × Ctrl :=
      if c4.aiState = "deciding" ∨ c4.aiState = "dead" then (noopMove, c4)
      else if c4.aiState = "idle" ∨ c4.aiState = "roaming" then
        match c4.destination with
        | some dest =>
          if distSqXZ c4.selfPos dest > c4.stoppingDistance ^ 2 then
            ({ noopMove with forward := 1 }, c4)
          else (noopMove, { c4 with aiState := "idle", destination := none })
        | none => (noopMove, { c4 with aiState := "idle" })
      else if c4.aiState = "movingToTarget" then
        match c4.target, c4.targetAction with
        | some targetRef, some targetAction =>
          let step : MoveState × Ctrl :=
            match targetRef with
            | TargetRef.entity id =>
              match resolveEntity env.world id with
              | some e =>
                if e.isDead then (noopMove, handleTargetLostOrDepleted env c4)
                else
                  let dsq := distSqXZ c4.selfPos e.pos
                  if dsq > (requiredDistance c4 targetAction) ^ 2 then
                    ({ noopMove with forward := 1 }, c4)
                  else movingToTargetInRange mcfg env c4 targetAction (some e) dsq
              | none =>
                -- an unresolvable reference is modelled as a dead entity
                (noopMove, handleTargetLostOrDepleted env c4)
            | TargetRef.resource id =>
              match env.world.resources.find? (fun r => decide (r.id = id)) with
              | some r =>
                if ¬ r.visible ∨ ¬ r.isInteractable then
                  (noopMove, handleTargetLostOrDepleted env c4)
                else
                  let dsq := distSqXZ c4.selfPos r.pos
                  if dsq > (requiredDistance c4 targetAction) ^ 2 then
                    ({ noopMove with forward := 1 }, c4)
                  else movingToTargetInRange mcfg env c4 targetAction none dsq
              | none =>
                -- an unresolvable reference is modelled as a depleted resource
                (noopMove, handleTargetLostOrDepleted env c4)
          step
        | _, _ => (noopMove, resetStateAfterAction env c4)
      else if c4.aiState = "following" then
        match c4.target with
        | some (TargetRef.entity id) =>
          match resolveEntity env.world id with
          | some e =>
            if ¬ e.kind = EntityKind.character ∨ e.isDead then
              (noopMove, resetStateAfterAction env c4)
            else
              let dsq := distSqXZ c4.selfPos e.pos
              if dsq > (c4.followDistance * 5) ^ 2 then
                (noopMove, resetStateAfterAction env c4)
              else if dsq > c4.followDistance ^ 2 then
                ({ noopMove with forward := 1 }, c4)
              else (noopMove, c4)
          | none => (noopMove, resetStateAfterAction env c4)
        | _ => (noopMove, resetStateAfterAction env c4)
      else if c4.aiState = "fleeing" then
        match c4.destination with
        | some dest =>
          if distSqXZ c4.selfPos dest > c4.stoppingDistance ^ 2 then
            ({ noopMove with forward := 1, sprint := true }, c4)
          else (noopMove, resetStateAfterAction env c4)
        | none => (noopMove, resetStateAfterAction env c4)
      else (noopMove, { c4 with aiState := "idle" })
    (dispatch.1, { dispatch.2 with previousAiState := dispatch.2.aiState }, issued)

/-- Counterexample to C5 as stated: the claim orders the thresholds
`attack < follow < chat/trade`, but the configured follow threshold (5) is
*larger* than the chat/trade threshold (3). -/
theorem c5_counterexample :
    AI_CONFIG.followDistance = 5 ∧
    AI_CONFIG.interactionDistance = 3 ∧
    ¬ AI_CONFIG.followDistance < AI_CONFIG.interactionDistance := by
  refine ⟨rfl, rfl, ?_⟩
  show ¬ (5 : ℚ) < 3
  norm_num

/-- **C5** (functional correctness, amended): in `movingToTarget` the
required proximity is selected by `targetAction` — `attack` uses
`attackDistance`, `follow` uses `followDistance`, chat and trade use
`interactionDistance` — and the independently configured thresholds are
ordered `attack (2) < chat/trade (3) < follow (5)`. -/
theorem c5_required_distance_selection (c : Ctrl) :
    requiredDistance c "attack" = c.attackDistance ∧
    requiredDistance c "follow" = c.followDistance ∧
    requiredDistance c "chat" = c.interactionDistance ∧
    requiredDistance c "trade" = c.interactionDistance ∧
    AI_CONFIG.attackDistance < AI_CONFIG.interactionDistance ∧
    AI_CONFIG.interactionDistance < AI_CONFIG.followDistance := by
  refine ⟨by simp [requiredDistance], by simp [requiredDistance],
    by simp [requiredDistance], by simp [requiredDistance], ?_, ?_⟩
  · show (2 : ℚ) < 3
    norm_num
  · show (3 : ℚ) < 5
    norm_num

/-- **C8** (invariants): the dead state is terminal and absorbing.  A tick
taken while the agent is dead emits the no-op movement command, forces
`aiState := "dead"`, changes nothing else, and issues no decision request; an
asynchronous decision result that resolves after death is discarded with the
state forced to `dead`; the decision routine itself refuses to run when
dead. -/
theorem c8_dead_absorbing (rcfg : ReflexConfig) (mcfg : MemoryConfig)
    (env : Env) (c : Ctrl) :
    (c.isDead = true →
      computeAIMoveState rcfg mcfg env c =
        (noopMove, { c with aiState := "dead" }, false)) ∧
    (∀ data : ActionData, c.isDead = true →
      setActionFromAPI env data c = { c with aiState := "dead" }) ∧
    (c.isDead = true →
      decideNextActionSync mcfg env c = ({ c with aiState := "dead" }, false)) := by
  refine ⟨?_, ?_, ?_⟩
  · intro h
    unfold computeAIMoveState
    rw [if_pos h]
  · intro data h
    unfold setActionFromAPI
    rw [if_pos h]
  · intro h
    unfold decideNextActionSync
    rw [if_pos h]

/-- A freshly constructed controller (constructor defaults plus the
character-derived fields), used by the concrete instances below. -/
def baseCtrl : Ctrl :=
  { aiState := "idle"
    previousAiState := "idle"
    homePosition := ((0 : ℚ), (0 : ℚ), (0 : ℚ))
    destination := none
    actionTimer := AI_CONFIG.actionTimerBase
    interactionDistance := AI_CONFIG.interactionDistance
    attackDistance := AI_CONFIG.attackDistance
    followDistance := AI_CONFIG.followDistance
    stoppingDistance := AI_CONFIG.stoppingDistance
    searchRadius := 30
    roamRadius := 20
    target := none
    observation := none
    lastObservation := none
    persona := ""
    currentIntent := ""
    targetAction := none
    message := none
    tradeItemsGive := []
    tradeItemsReceive := []
    lastApiCallTime := 0
    apiCallCooldown := AI_CONFIG.apiCallCooldown
    persistentAction := none
    chatDecisionTimer := false
    lastLoggedAttackTargetId := none
    memoryStream := MemoryStream.empty
    lastReflexTime := 0
    isReflexAction := false
    selfId := "npc1"
    selfName := "Brok"
    selfPos := ((0 : ℚ), (0 : ℚ), (0 : ℚ))
    maxHealth := 100
    isDead := false
    isPerformingAction := false
    lastAttackerId := none
    disposition := Disposition.defensive }

/-- A hostile wolf entity. -/
def wolfEntity : WEntity :=
  { id := "wolf1", name := "Wolf", kind := EntityKind.animal, isDead := false,
    pos := ((1 : ℚ), (0 : ℚ), (0 : ℚ)), animalType := "wolf",
    isAggressive := true, lastAttackerId := none }

/-- A quiet environment for concrete runs. -/
def baseEnv : Env :=
  { now := 0
    deltaTime := 0
    apiJitter := 0
    timerRand := 0
    resetRand := 0
    apiTimerRand := 0
    fallbackDest := ((0 : ℚ), (0 : ℚ), (0 : ℚ))
    fleeDest := fun selfPos _ _ => selfPos
    newObs := { selfHealth := 100, nearbyCharacters := [], nearbyAnimals := [] }
    world := { entities := [], resources := [], activeCharacterId := none } }

/-- Modelled from the spec: concrete reflex constants for the instances below
(`fleeHealthThreshold = 0.2` as the spec's end-to-end example fixes;
the other values are arbitrary). -/
def exReflexCfg : ReflexConfig :=
  { reflexCooldown := 1000, fleeHealthThreshold := 1/5,
    cautiousFightThreshold := 2/5, fleeDuration := 5 }

/-- Witness for C8: a dead controller's tick is the no-op command with only
`aiState` forced to `dead`, and a late decision reply is discarded. -/
theorem c8_witness :
    ({ baseCtrl with isDead := true } : Ctrl).isDead = true ∧
    computeAIMoveState exReflexCfg exCfg baseEnv { baseCtrl with isDead := true } =
      (noopMove, { baseCtrl with isDead := true, aiState := "dead" }, false) ∧
    setActionFromAPI baseEnv
      { action := "chat", target_id := some "npc2", message := some "hi",
        give_items := none, receive_items := none, intent := some "chatting" }
      { baseCtrl with isDead := true } =
      { baseCtrl with isDead := true, aiState := "dead" } := by
  refine ⟨rfl, ?_, ?_⟩
  · exact (c8_dead_absorbing exReflexCfg exCfg baseEnv _).1 rfl
  · exact (c8_dead_absorbing exReflexCfg exCfg baseEnv _).2.1 _ rfl

/-- **C6** (temporal, amended): a reflex fires only when the reflex cooldown
has elapsed, only when an observation exists, and never while the controller
is `deciding` (in each other case `evaluateReflex` leaves the controller
bit-for-bit unchanged); an *attack* reflex additionally never fires while a
non-reflex deliberate action other than `attack` (a chat, trade, or follow
initiated by the remote decision) is in progress — but a *flee* reflex is
not so gated and may interrupt such actions (see the counterexample). -/
theorem c6_reflex_gating (rcfg : ReflexConfig) (mcfg : MemoryConfig)
    (env : Env) (c : Ctrl) :
    (env.now - c.lastReflexTime < rcfg.reflexCooldown →
      evaluateReflex rcfg mcfg env c = c) ∧
    (c.observation = none → evaluateReflex rcfg mcfg env c = c) ∧
    (c.aiState = "deciding" → evaluateReflex rcfg mcfg env c = c) ∧
    (∀ (now : ℚ) (target : WEntity) (intent : String) (a : String),
      c.isReflexAction = false → c.targetAction = some a → ¬ a = "attack" →
      triggerAttack mcfg now c target intent = c) := by
  refine ⟨?_, ?_, ?_, ?_⟩
  · intro h
    unfold evaluateReflex
    rw [if_pos h]
  · intro h
    unfold evaluateReflex
    by_cases hcd : env.now - c.lastReflexTime < rcfg.reflexCooldown
    · rw [if_pos hcd]
    · rw [if_neg hcd, h]
  · intro h
    unfold evaluateReflex
    by_cases hcd : env.now - c.lastReflexTime < rcfg.reflexCooldown
    · rw [if_pos hcd]
    · rw [if_neg hcd]
      cases hobs : c.observation with
      | none => rfl
      | some obs => simp [h]
  · intro now target intent a hrefl hta hne
    unfold triggerAttack
    rw [hrefl, hta]
    simp [hne]

/-- The controller of the C6 counterexample: a non-reflex deliberate chat is
in progress, health is low (10 of 100 < the 0.2 flee threshold), and the
wolf that last hit us is alive nearby. -/
def chatCtrl : Ctrl :=
  { baseCtrl with
    aiState := "movingToTarget"
    targetAction := some "chat"
    message := some "Hello"
    target := some (TargetRef.entity "npc2")
    observation := some { selfHealth := 10, nearbyCharacters := [],
                          nearbyAnimals := [] }
    lastAttackerId := some "wolf1" }

def chatEnv : Env :=
  { baseEnv with
    now := 5000
    world := { entities := [wolfEntity], resources := [],
               activeCharacterId := none } }

/-- Counterexample to C6 as stated: with a non-reflex deliberate chat in
progress, the low-health flee reflex still fires — `evaluateReflex` moves the
controller to `fleeing` and wipes the chat.  Only `triggerAttack` carries the
do-not-interrupt guard; `triggerFlee` does not. -/
theorem c6_counterexample :
    chatCtrl.isReflexAction = false ∧
    chatCtrl.targetAction = some "chat" ∧
    chatCtrl.aiState = "movingToTarget" ∧
    (evaluateReflex exReflexCfg exCfg chatEnv chatCtrl).aiState = "fleeing" ∧
    (evaluateReflex exReflexCfg exCfg chatEnv chatCtrl).targetAction = none := by
  refine ⟨rfl, rfl, rfl, ?_, ?_⟩ <;>
  · simp [evaluateReflex, chatCtrl, chatEnv, baseCtrl, baseEnv, exReflexCfg,
      exCfg, findNearestThreat, findAttacker, resolveEntity, findNearestHostile,
      nearestAux, wolfEntity, triggerFlee, encodeActionMemory,
      MemoryStream.add, List.find?]
    norm_num [distSq]

/-- Witness for C6 (amended): with the cooldown still running the reflex pass
is the identity, and an attack reflex against a controller busy with a
non-reflex chat is swallowed. -/
theorem c6_witness :
    baseEnv.now - baseCtrl.lastReflexTime < exReflexCfg.reflexCooldown ∧
    evaluateReflex exReflexCfg exCfg baseEnv baseCtrl = baseCtrl ∧
    triggerAttack exCfg 0 chatCtrl wolfEntity "Engaging!" = chatCtrl := by
  have h : baseEnv.now - baseCtrl.lastReflexTime < exReflexCfg.reflexCooldown := by
    norm_num [baseEnv, baseCtrl, exReflexCfg]
  refine ⟨h, (c6_reflex_gating exReflexCfg exCfg baseEnv baseCtrl).1 h, ?_⟩
  exact (c6_reflex_gating exReflexCfg exCfg baseEnv chatCtrl).2.2.2
    0 wolfEntity "Engaging!" "chat" rfl rfl (by simp)

/-! ### Nearest-search lemmas -/

theorem nearestAux_some_of_some (cand : α → Bool) (d : α → ℚ) (rsq : ℚ) :
    ∀ (l : List α) (b : α), nearestAux cand d rsq l (some b) ≠ none := by
  intro l
  induction l with
  | nil => intro b h; exact Option.noConfusion h
  | cons e es ih =>
    intro b
    unfold nearestAux
    by_cases hc : cand e = true
    · rw [if_pos hc]
      dsimp only
      by_cases hok : (decide (d e < rsq ∧ d e < d b) : Bool) = true
      · rw [hok]
        simp only [if_true]
        exact ih e
      · rw [eq_false_of_ne_true hok]
        simp only [Bool.false_eq_true, if_false]
        exact ih b
    · rw [if_neg hc]
      exact ih b

theorem nearestAux_none_iff (cand : α → Bool) (d : α → ℚ) (rsq : ℚ) :
    ∀ (l : List α),
      nearestAux cand d rsq l none = none ↔
        ∀ e ∈ l, ¬ (cand e = true ∧ d e < rsq) := by
  intro l
  induction l with
  | nil => simp [nearestAux]
  | cons e es ih =>
    unfold nearestAux
    by_cases hc : cand e = true
    · rw [if_pos hc]
      dsimp only
      by_cases hok : d e < rsq
      · rw [(by simp [hok] : (decide (d e < rsq) : Bool) = true)]
        simp only [if_true]
        constructor
        · intro h
          exact absurd h (nearestAux_some_of_some cand d rsq es e)
        · intro h
          exact absurd ⟨hc, hok⟩ (h e (List.mem_cons_self e es))
      · rw [(by simp [hok] : (decide (d e < rsq) : Bool) = false)]
        simp only [Bool.false_eq_true, if_false]
        rw [ih]
        constructor
        · intro h f hf
          rcases List.mem_cons.mp hf with h1 | h2
          · subst h1; exact fun hcontra => hok hcontra.2
          · exact h f h2
        · intro h f hf
          exact h f (List.mem_cons_of_mem e hf)
    · rw [if_neg hc]
      rw [ih]
      constructor
      · intro h f hf
        rcases List.mem_cons.mp hf with h1 | h2
        · subst h1; exact fun hcontra => hc hcontra.1
        · exact h f h2
      · intro h f hf
        exact h f (List.mem_cons_of_mem e hf)

theorem nearestAux_spec (cand : α → Bool) (d : α → ℚ) (rsq : ℚ) :
    ∀ (l : List α) (best : Option α) (r : α),
      (∀ b, best = some b → cand b = true ∧ d b < rsq) →
      nearestAux cand d rsq l best = some r →
      (cand r = true ∧ d r < rsq) ∧
      (∀ e ∈ l, cand e = true → d e < rsq → d r ≤ d e) ∧
      (∀ b, best = some b → d r ≤ d b) := by
  intro l
  induction l with
  | nil =>
    intro best r hbest hr
    unfold nearestAux at hr
    refine ⟨hbest r hr, by intro e he; simp at he, ?_⟩
    intro b hb
    rw [hb] at hr
    cases hr
    exact le_refl _
  | cons e es ih =>
    intro best r hbest hr
    unfold nearestAux at hr
    by_cases hc : cand e = true
    · rw [if_pos hc] at hr
      cases best with
      | none =>
        dsimp only at hr
        by_cases hok : d e < rsq
        · rw [(by simp [hok] : (decide (d e < rsq) : Bool) = true)] at hr
          simp only [if_true] at hr
          obtain ⟨hrprops, hmin, hbefore⟩ := ih (some e) r
            (by intro b hb; cases hb; exact ⟨hc, hok⟩) hr
          refine ⟨hrprops, ?_, by intro b hb; cases hb⟩
          intro f hf hcf hdf
          rcases List.mem_cons.mp hf with h1 | h2
          · subst h1; exact hbefore f rfl
          · exact hmin f h2 hcf hdf
        · rw [(by simp [hok] : (decide (d e < rsq) : Bool) = false)] at hr
          simp only [Bool.false_eq_true, if_false] at hr
          obtain ⟨hrprops, hmin, _⟩ := ih none r (by intro b hb; cases hb) hr
          refine ⟨hrprops, ?_, by intro b hb; cases hb⟩
          intro f hf hcf hdf
          rcases List.mem_cons.mp hf with h1 | h2
          · subst h1; exact absurd hdf hok
          · exact hmin f h2 hcf hdf
      | some b =>
        dsimp only at hr
        have hbprops := hbest b rfl
        by_cases hok : d e < rsq ∧ d e < d b
        · rw [(by simp [hok.1, hok.2] :
            (decide (d e < rsq ∧ d e < d b) : Bool) = true)] at hr
          simp only [if_true] at hr
          obtain ⟨hrprops, hmin, hbefore⟩ := ih (some e) r
            (by intro x hx; cases hx; exact ⟨hc, hok.1⟩) hr
          refine ⟨hrprops, ?_, ?_⟩
          · intro f hf hcf hdf
            rcases List.mem_cons.mp hf with h1 | h2
            · subst h1; exact hbefore f rfl
            · exact hmin f h2 hcf hdf
          · intro x hx
            cases hx
            exact le_trans (hbefore e rfl) (le_of_lt hok.2)
        · rw [(by simpa using hok :
            (decide (d e < rsq ∧ d e < d b) : Bool) = false)] at hr
          simp only [Bool.false_eq_true, if_false] at hr
          obtain ⟨hrprops, hmin, hbefore⟩ := ih (some b) r hbest hr
          refine ⟨hrprops, ?_, hbefore⟩
          intro f hf hcf hdf
          rcases List.mem_cons.mp hf with h1 | h2
          · subst h1
            have hdb : d b ≤ d f := by
              by_contra hcontra
              exact hok ⟨hdf, not_le.mp hcontra⟩
            exact le_trans (hbefore b rfl) hdb
          · exact hmin f h2 hcf hdf
    · rw [if_neg hc] at hr
      obtain ⟨hrprops, hmin, hbefore⟩ := ih best r hbest hr
      refine ⟨hrprops, ?_, hbefore⟩
      intro f hf hcf hdf
      rcases List.mem_cons.mp hf with h1 | h2
      · subst h1; exact absurd hcf hc
      · exact hmin f h2 hcf hdf

theorem findNearestAnimal_some (w : World) (c : Ctrl) (tt : String)
    (e : WEntity) (h : findNearestAnimal w c tt = some e) :
    (e.kind = EntityKind.animal ∧ e.animalType = tt ∧ e.isDead = false) ∧
    distSq c.selfPos e.pos < c.searchRadius * c.searchRadius ∧
    (∀ f ∈ w.entities, f.kind = EntityKind.animal → f.animalType = tt →
      f.isDead = false →
      distSq c.selfPos f.pos < c.searchRadius * c.searchRadius →
      distSq c.selfPos e.pos ≤ distSq c.selfPos f.pos) := by
  obtain ⟨⟨hcand, hrad⟩, hmin, _⟩ := nearestAux_spec _ _ _ w.entities none e
    (by intro b hb; cases hb) h
  refine ⟨of_decide_eq_true hcand, hrad, ?_⟩
  intro f hf h1 h2 h3 h4
  exact hmin f hf (decide_eq_true ⟨h1, h2, h3⟩) h4

theorem findNearestAnimal_none (w : World) (c : Ctrl) (tt : String) :
    findNearestAnimal w c tt = none ↔
      ∀ f ∈ w.entities,
        ¬ (f.kind = EntityKind.animal ∧ f.animalType = tt ∧ f.isDead = false ∧
          distSq c.selfPos f.pos < c.searchRadius * c.searchRadius) := by
  unfold findNearestAnimal
  rw [nearestAux_none_iff]
  constructor
  · intro h f hf ⟨h1, h2, h3, h4⟩
    exact h f hf ⟨decide_eq_true ⟨h1, h2, h3⟩, h4⟩
  · intro h f hf ⟨h1, h2⟩
    obtain ⟨h3, h4, h5⟩ := of_decide_eq_true h1
    exact h f hf ⟨h3, h4, h5, h2⟩

theorem findNearestResource_some (w : World) (c : Ctrl) (tt : String)
    (r : WResource) (h : findNearestResource w c tt = some r) :
    (r.isInteractable = true ∧ r.resourceType = some tt ∧ r.visible = true ∧
      r.health > 0) ∧
    distSq c.selfPos r.pos < c.searchRadius * c.searchRadius ∧
    (∀ f ∈ w.resources, f.isInteractable = true → f.resourceType = some tt →
      f.visible = true → f.health > 0 →
      distSq c.selfPos f.pos < c.searchRadius * c.searchRadius →
      distSq c.selfPos r.pos ≤ distSq c.selfPos f.pos) := by
  obtain ⟨⟨hcand, hrad⟩, hmin, _⟩ := nearestAux_spec _ _ _ w.resources none r
    (by intro b hb; cases hb) h
  refine ⟨of_decide_eq_true hcand, hrad, ?_⟩
  intro f hf h1 h2 h3 h03 h4
  exact hmin f hf (decide_eq_true ⟨h1, h2, h3, h03⟩) h4

theorem findNearestResource_none (w : World) (c : Ctrl) (tt : String) :
    findNearestResource w c tt = none ↔
      ∀ f ∈ w.resources,
        ¬ (f.isInteractable = true ∧ f.resourceType = some tt ∧
          f.visible = true ∧ f.health > 0 ∧
          distSq c.selfPos f.pos < c.searchRadius * c.searchRadius) := by
  unfold findNearestResource
  rw [nearestAux_none_iff]
  constructor
  · intro h f hf ⟨h1, h2, h3, h03, h4⟩
    exact h f hf ⟨decide_eq_true ⟨h1, h2, h3, h03⟩, h4⟩
  · intro h f hf ⟨h1, h2⟩
    obtain ⟨h3, h4, h5, h6⟩ := of_decide_eq_true h1
    exact h f hf ⟨h3, h4, h5, h6, h2⟩

theorem handleTarget_byId (env : Env) (c : Ctrl) (pa : PersistentAction)
    (tid : String) (hpa : c.persistentAction = some pa)
    (htype : pa.type = "attack") (htid : pa.targetId = some tid) :
    handleTargetLostOrDepleted env c =
      (match env.world.entities.find?
          (fun x => decide (x.id = tid ∧ x.isDead = false)) with
        | some e =>
          if distSq c.selfPos e.pos < c.searchRadius * c.searchRadius then
            { c with lastLoggedAttackTargetId := none
                     target := some (TargetRef.entity e.id)
                     aiState := "movingToTarget" }
          else resetStateAfterAction env c
        | none => resetStateAfterAction env c) := by
  simp only [handleTargetLostOrDepleted, hpa, htype, htid]
  simp [resetStateAfterAction]

theorem handleTarget_byCategory (env : Env) (c : Ctrl) (pa : PersistentAction)
    (tt : String) (hpa : c.persistentAction = some pa)
    (htype : pa.type = "attack") (htid : pa.targetId = none)
    (htt : pa.targetType = some tt) :
    handleTargetLostOrDepleted env c =
      (match (if tt = "wood" ∨ tt = "stone" ∨ tt = "herb" then
          (findNearestResource env.world c tt).map
            (fun r => TargetRef.resource r.id)
        else
          (findNearestAnimal env.world c tt).map
            (fun e => TargetRef.entity e.id)) with
        | some t =>
          { c with lastLoggedAttackTargetId := none
                   target := some t
                   aiState := "movingToTarget" }
        | none => resetStateAfterAction env c) := by
  simp only [handleTargetLostOrDepleted, hpa, htype, htid, htt]
  simp [resetStateAfterAction, findNearestResource, findNearestAnimal]

theorem handleTarget_noPersistent (env : Env) (c : Ctrl)
    (hpa : c.persistentAction = none) :
    handleTargetLostOrDepleted env c = resetStateAfterAction env c := by
  simp only [handleTargetLostOrDepleted, hpa]
  simp [resetStateAfterAction]

/-- **C9** (functional correctness): when a `movingToTarget` goal's target
becomes invalid — (a) with a persistent attack on a specific identity, the
controller re-targets that entity iff it is alive (the live-entity lookup
succeeds) and within the search radius, else drops the persistent goal and
resets to idle; (b) with a persistent attack on a category, it targets the
nearest live instance of that category within the search radius (nearest in
the proved argmin sense), else drops the goal and resets to idle; (c) with no
persistent goal it unconditionally resets to idle, clearing target, action,
message, trade, and persistent fields and randomizing the next action-timer
delay. -/
theorem c9_goal_reacquisition (env : Env) (c : Ctrl) :
    (∀ pa tid, c.persistentAction = some pa → pa.type = "attack" →
      pa.targetId = some tid →
      (∀ e, env.world.entities.find?
          (fun x => decide (x.id = tid ∧ x.isDead = false)) = some e →
        (distSq c.selfPos e.pos < c.searchRadius * c.searchRadius →
          handleTargetLostOrDepleted env c =
            { c with lastLoggedAttackTargetId := none
                     target := some (TargetRef.entity e.id)
                     aiState := "movingToTarget" }) ∧
        (¬ distSq c.selfPos e.pos < c.searchRadius * c.searchRadius →
          handleTargetLostOrDepleted env c = resetStateAfterAction env c)) ∧
      (env.world.entities.find?
          (fun x => decide (x.id = tid ∧ x.isDead = false)) = none →
        handleTargetLostOrDepleted env c = resetStateAfterAction env c)) ∧
    (∀ pa tt, c.persistentAction = some pa → pa.type = "attack" →
      pa.targetId = none → pa.targetType = some tt →
      ((tt = "wood" ∨ tt = "stone" ∨ tt = "herb") →
        (∀ r, findNearestResource env.world c tt = some r →
          handleTargetLostOrDepleted env c =
            { c with lastLoggedAttackTargetId := none
                     target := some (TargetRef.resource r.id)
                     aiState := "movingToTarget" }) ∧
        (findNearestResource env.world c tt = none →
          handleTargetLostOrDepleted env c = resetStateAfterAction env c)) ∧
      (¬ (tt = "wood" ∨ tt = "stone" ∨ tt = "herb") →
        (∀ e, findNearestAnimal env.world c tt = some e →
          handleTargetLostOrDepleted env c =
            { c with lastLoggedAttackTargetId := none
                     target := some (TargetRef.entity e.id)
                     aiState := "movingToTarget" }) ∧
        (findNearestAnimal env.world c tt = none →
          handleTargetLostOrDepleted env c = resetStateAfterAction env c))) ∧
    (∀ tt e, findNearestAnimal env.world c tt = some e →
      (e.kind = EntityKind.animal ∧ e.animalType = tt ∧ e.isDead = false) ∧
      distSq c.selfPos e.pos < c.searchRadius * c.searchRadius ∧
      (∀ f ∈ env.world.entities, f.kind = EntityKind.animal →
        f.animalType = tt → f.isDead = false →
        distSq c.selfPos f.pos < c.searchRadius * c.searchRadius →
        distSq c.selfPos e.pos ≤ distSq c.selfPos f.pos)) ∧
    (∀ tt, findNearestAnimal env.world c tt = none ↔
      ∀ f ∈ env.world.entities,
        ¬ (f.kind = EntityKind.animal ∧ f.animalType = tt ∧ f.isDead = false ∧
          distSq c.selfPos f.pos < c.searchRadius * c.searchRadius)) ∧
    (∀ tt r, findNearestResource env.world c tt = some r →
      (r.isInteractable = true ∧ r.resourceType = some tt ∧ r.visible = true ∧
        r.health > 0) ∧
      distSq c.selfPos r.pos < c.searchRadius * c.searchRadius ∧
      (∀ f ∈ env.world.resources, f.isInteractable = true →
        f.resourceType = some tt → f.visible = true → f.health > 0 →
        distSq c.selfPos f.pos < c.searchRadius * c.searchRadius →
        distSq c.selfPos r.pos ≤ distSq c.selfPos f.pos)) ∧
    (c.persistentAction = none →
      handleTargetLostOrDepleted env c = resetStateAfterAction env c ∧
      resetStateAfterAction env c =
        { c with aiState := "idle"
                 target := none
                 targetAction := none
                 message := none
                 tradeItemsGive := []
                 tradeItemsReceive := []
                 persistentAction := none
                 isReflexAction := false
                 actionTimer := 3 + env.resetRand * 4
                 lastLoggedAttackTargetId := none }) := by
  refine ⟨?_, ?_, ?_, ?_, ?_, ?_⟩
  · intro pa tid hpa htype htid
    have hun := handleTarget_byId env c pa tid hpa htype htid
    constructor
    · intro e hfind
      rw [hun, hfind]
      constructor
      · intro hdist
        simp only [if_pos hdist]
      · intro hdist
        simp only [if_neg hdist]
    · intro hfind
      rw [hun, hfind]
  · intro pa tt hpa htype htid htt
    have hun := handleTarget_byCategory env c pa tt hpa htype htid htt
    constructor
    · intro hres
      constructor
      · intro r hfind
        rw [hun, if_pos hres, hfind]
        rfl
      · intro hfind
        rw [hun, if_pos hres, hfind]
        rfl
    · intro hres
      constructor
      · intro e hfind
        rw [hun, if_neg hres, hfind]
        rfl
      · intro hfind
        rw [hun, if_neg hres, hfind]
        rfl
  · intro tt e h
    exact findNearestAnimal_some env.world c tt e h
  · intro tt
    exact findNearestAnimal_none env.world c tt
  · intro tt r h
    exact findNearestResource_some env.world c tt r h
  · intro hpa
    exact ⟨handleTarget_noPersistent env c hpa, rfl⟩

/-- A second, farther wolf (listed first, so nearest-wins is visible). -/
def wolfFar : WEntity :=
  { id := "wolf2", name := "Wolf", kind := EntityKind.animal, isDead := false,
    pos := ((10 : ℚ), (0 : ℚ), (0 : ℚ)), animalType := "wolf",
    isAggressive := true, lastAttackerId := none }

/-- A controller holding a persistent category-attack goal on wolves. -/
def goalCtrl : Ctrl :=
  { baseCtrl with
    aiState := "movingToTarget"
    targetAction := some "attack"
    persistentAction := some (PersistentAction.mk "attack" (some "wolf") none) }

def goalEnv : Env :=
  { baseEnv with
    world := { entities := [wolfFar, wolfEntity], resources := [],
               activeCharacterId := none } }

/-- Witness for C9: after losing its target, the category-goal controller
re-acquires the *nearest* live wolf (`wolf1` at distance 1, not `wolf2` at
distance 10, though `wolf2` is listed first). -/
theorem c9_witness :
    goalCtrl.persistentAction =
      some (PersistentAction.mk "attack" (some "wolf") none) ∧
    handleTargetLostOrDepleted goalEnv goalCtrl =
      { goalCtrl with
        lastLoggedAttackTargetId := none
        target := some (TargetRef.entity "wolf1")
        aiState := "movingToTarget" } := by
  have hfind : findNearestAnimal goalEnv.world goalCtrl "wolf" =
      some wolfEntity := by
    simp only [findNearestAnimal, nearestAux, goalEnv, goalCtrl, baseEnv,
      baseCtrl, wolfFar, wolfEntity]
    norm_num [distSq]
  have h := (c9_goal_reacquisition goalEnv goalCtrl).2.1
    (PersistentAction.mk "attack" (some "wolf") none) "wolf" rfl rfl rfl rfl
  have hres : ¬ (("wolf" : String) = "wood" ∨ ("wolf" : String) = "stone" ∨
      ("wolf" : String) = "herb") := by simp
  have := (h.2 hres).1 wolfEntity hfind
  exact ⟨rfl, this⟩
